import Mathlib

/-!
Verification development for the `window_art` repository.

The repository is a Python library that animates desktop windows: a window
holds logical properties (position, size, opacity, color) together with dirty
flags, tween generators interpolate a property toward a target value over
time, combinators run generators in parallel or in sequence, and a driver
loop flushes each window's pending changes once per frame.

This file gives a shallow embedding of the code relevant to the verified
claims:

* `src/window_art/color.py` — `Color` with clamped channels and `Color.lerp`
  (truncating channel interpolation), `Color.parse` / `from_hex` / `from_name`.
* `src/window_art/window.py` — the logical window state, the property
  setters with their dirty-flag bookkeeping, and `Window._apply_changes`.
* `src/window_art/animate.py` — the tween generators `_move_gen`,
  `_resize_gen`, `_fade_gen`, `_color_gen`, the combinators `_parallel_gen`
  and `_sequence_gen`, and the blocking entrypoints `move`, `resize`,
  `fade`, `color_to`.
* `src/window_art/easing.py` — the easing function library and `get_easing`.

Modelling conventions:

* Python floats are modelled as exact rationals (`ℚ`) in the window /
  animation state machine, and as real numbers (`ℝ`) in the easing library,
  whose functions are genuinely transcendental (`sin`, `cos`, `sqrt`, real
  powers).
* Python generators are modelled as explicit step functions on an explicit
  state, driven by the list of observed `elapsed` samples (one sample per
  `next()` call); a finished generator is a `none` step result
  (`StopIteration`).
* SDL side effects are modelled as an emitted list of `Effect` values; a call
  with no observable side effects emits `[]`.
* The GIF / video sub-objects stored on a window are modelled abstractly as
  states of arbitrary types `γ` / `δ` together with an update function
  `γ → ℚ → γ × Bool` (mirroring `GifAnimation.update(dt) -> bool` /
  `VideoPlayer.update(dt) -> bool`); the claims proved here never depend on
  their internals, only on the `if self._gif and dt > 0` gating in
  `Window._apply_changes`.
-/

namespace WindowArt

/-- Python `int()` applied to an exact rational: truncation toward zero
(`int(2.7) = 2`, `int(-2.7) = -2`). -/
def truncQ (q : ℚ) : ℤ :=
  if 0 ≤ q then ⌊q⌋ else ⌈q⌉

/-- Channel clamp from `Color.__post_init__`:
`max(0, min(255, channel))`. -/
def clampChan (v : ℤ) : ℤ :=
  max 0 (min 255 v)

/-- `color.py` — `Color`: RGBA color; every construction runs
`__post_init__`, so channels are stored clamped (see `mkColor`). -/
structure Color where
  r : ℤ
  g : ℤ
  b : ℤ
  a : ℤ
  deriving DecidableEq, Repr

/-- The `Color(r, g, b, a=255)` constructor including `__post_init__`'s
channel clamping. -/
def mkColor (r g b : ℤ) (a : ℤ := 255) : Color :=
  ⟨clampChan r, clampChan g, clampChan b, clampChan a⟩

/-- `Color.lerp`: each channel is `int(self.c + (other.c - self.c) * t)` —
truncating conversion — and the resulting `Color(...)` construction clamps
each channel through `__post_init__`. -/
def Color.lerp (c o : Color) (t : ℚ) : Color :=
  mkColor
    (truncQ ((c.r : ℚ) + ((o.r : ℚ) - (c.r : ℚ)) * t))
    (truncQ ((c.g : ℚ) + ((o.g : ℚ) - (c.g : ℚ)) * t))
    (truncQ ((c.b : ℚ) + ((o.b : ℚ) - (c.b : ℚ)) * t))
    (truncQ ((c.a : ℚ) + ((o.a : ℚ) - (c.a : ℚ)) * t))

/-- All channels in the representable range `[0, 255]`; guaranteed for every
color built by `mkColor` (i.e. by the Python constructor). -/
def Color.Valid (c : Color) : Prop :=
  0 ≤ c.r ∧ c.r ≤ 255 ∧ 0 ≤ c.g ∧ c.g ≤ 255 ∧
    0 ≤ c.b ∧ c.b ≤ 255 ∧ 0 ≤ c.a ∧ c.a ≤ 255

instance (c : Color) : Decidable c.Valid := by
  unfold Color.Valid; infer_instance

/-! ## The window state (`window.py`)

`Win γ δ` holds the logical values and dirty flags of a `Window`.  The GIF
and video sub-objects (`self._gif` / `self._video`) are abstracted as
optional states of types `γ` and `δ`; the text renderer
(`self._text_renderer`) is abstracted to its presence. -/

structure Win (γ δ : Type) where
  x : ℚ
  y : ℚ
  w : ℚ
  h : ℚ
  opacity : ℚ
  color : Color
  closed : Bool
  position_dirty : Bool
  size_dirty : Bool
  opacity_dirty : Bool
  dirty : Bool
  text_dirty : Bool
  textRenderer : Bool
  gif : Option γ
  video : Option δ

/-- `Window.x` setter: store `float(value)` and set `_position_dirty`. -/
def Win.setX (w : Win γ δ) (v : ℚ) : Win γ δ :=
  { w with x := v, position_dirty := true }

/-- `Window.y` setter: store `float(value)` and set `_position_dirty`. -/
def Win.setY (w : Win γ δ) (v : ℚ) : Win γ δ :=
  { w with y := v, position_dirty := true }

/-- `Window.w` setter: store `float(value)` and set `_size_dirty`. -/
def Win.setW (w : Win γ δ) (v : ℚ) : Win γ δ :=
  { w with w := v, size_dirty := true }

/-- `Window.h` setter: store `float(value)` and set `_size_dirty`. -/
def Win.setH (w : Win γ δ) (v : ℚ) : Win γ δ :=
  { w with h := v, size_dirty := true }

/-- `Window.opacity` setter: store `max(0.0, min(1.0, float(value)))` and set
`_opacity_dirty`. -/
def Win.setOpacity (w : Win γ δ) (v : ℚ) : Win γ δ :=
  { w with opacity := max 0 (min 1 v), opacity_dirty := true }

/-- `Window.color` setter applied to a value that is already a `Color`
(`Color.parse` returns such a value unchanged): store it and set `_dirty`. -/
def Win.setColorC (w : Win γ δ) (c : Color) : Win γ δ :=
  { w with color := c, dirty := true }

/-- Observable side effects of `Window._apply_changes` (the SDL calls and
texture updates it can perform). -/
inductive Effect where
  | setWindowPosition (x y : ℤ)
  | setWindowSize (w h : ℤ)
  | setWindowOpacity (o : ℚ)
  | updateGifTexture
  | updateVideoTexture
  | updateTextTexture
  | render
  deriving DecidableEq, Repr

/-- `_apply_changes`, position block: if `_position_dirty`, call
`SDL_SetWindowPosition(int(x), int(y))` and clear the flag. -/
def flushPosition (w : Win γ δ) : Win γ δ × List Effect :=
  if w.position_dirty then
    ({ w with position_dirty := false },
      [.setWindowPosition (truncQ w.x) (truncQ w.y)])
  else (w, [])

/-- `_apply_changes`, size block: if `_size_dirty`, call
`SDL_SetWindowSize(int(w), int(h))`, clear the flag, set `_dirty`, and if a
text renderer exists set `_text_dirty`. -/
def flushSize (w : Win γ δ) : Win γ δ × List Effect :=
  if w.size_dirty then
    ({ w with
        size_dirty := false
        dirty := true
        text_dirty := if w.textRenderer then true else w.text_dirty },
      [.setWindowSize (truncQ w.w) (truncQ w.h)])
  else (w, [])

/-- `_apply_changes`, opacity block: if `_opacity_dirty`, call
`SDL_SetWindowOpacity(opacity)` and clear the flag. -/
def flushOpacity (w : Win γ δ) : Win γ δ × List Effect :=
  if w.opacity_dirty then
    ({ w with opacity_dirty := false }, [.setWindowOpacity w.opacity])
  else (w, [])

/-- `_apply_changes`, GIF block: `if self._gif and dt > 0:` run
`gif.update(dt)`; on a frame change, update the GIF texture and set
`_dirty`. -/
def stepGif (gifUpd : γ → ℚ → γ × Bool) (dt : ℚ) (w : Win γ δ) :
    Win γ δ × List Effect :=
  match w.gif with
  | none => (w, [])
  | some g =>
    if 0 < dt then
      let r := gifUpd g dt
      if r.2 then
        ({ w with gif := some r.1, dirty := true }, [.updateGifTexture])
      else ({ w with gif := some r.1 }, [])
    else (w, [])

/-- `_apply_changes`, video block: `if self._video and dt > 0:` run
`video.update(dt)`; on a frame change, update the video texture and set
`_dirty`. -/
def stepVideo (vidUpd : δ → ℚ → δ × Bool) (dt : ℚ) (w : Win γ δ) :
    Win γ δ × List Effect :=
  match w.video with
  | none => (w, [])
  | some v =>
    if 0 < dt then
      let r := vidUpd v dt
      if r.2 then
        ({ w with video := some r.1, dirty := true }, [.updateVideoTexture])
      else ({ w with video := some r.1 }, [])
    else (w, [])

/-- `_apply_changes`, text block: `if self._text_dirty and
self._text_renderer:` rebuild the text texture (clearing `_text_dirty`) and
set `_dirty`. -/
def flushText (w : Win γ δ) : Win γ δ × List Effect :=
  if w.text_dirty && w.textRenderer then
    ({ w with text_dirty := false, dirty := true }, [.updateTextTexture])
  else (w, [])

/-- `_apply_changes`, final block: `if self._dirty:` re-render once and clear
`_dirty`. -/
def finalRender (w : Win γ δ) : Win γ δ × List Effect :=
  if w.dirty then ({ w with dirty := false }, [.render]) else (w, [])

/-- `Window._apply_changes(dt)`: early-return on a closed window, then the
flush blocks in source order, concatenating their observable effects. -/
def applyChanges (gifUpd : γ → ℚ → γ × Bool) (vidUpd : δ → ℚ → δ × Bool)
    (w : Win γ δ) (dt : ℚ) : Win γ δ × List Effect :=
  if w.closed then (w, [])
  else
    let p := flushPosition w
    let s := flushSize p.1
    let o := flushOpacity s.1
    let gg := stepGif gifUpd dt o.1
    let vv := stepVideo vidUpd dt gg.1
    let tx := flushText vv.1
    let rd := finalRender tx.1
    (rd.1, p.2 ++ s.2 ++ o.2 ++ gg.2 ++ vv.2 ++ tx.2 ++ rd.2)

/-! ## Lemmas about `Color.lerp` (claim C9) -/

theorem clampChan_eq_self {z : ℤ} (h0 : 0 ≤ z) (h255 : z ≤ 255) :
    clampChan z = z := by
  unfold clampChan
  omega

theorem truncQ_of_nonneg {q : ℚ} (h : 0 ≤ q) : truncQ q = ⌊q⌋ := by
  unfold truncQ
  exact if_pos h

/-- For `t ∈ [0,1]`, the interpolated channel value lies between the two
endpoint channels. -/
theorem lerp_channel_bounds {x y : ℤ} {t : ℚ}
    (hx0 : 0 ≤ x) (hx : x ≤ 255) (hy0 : 0 ≤ y) (hy : y ≤ 255)
    (ht0 : 0 ≤ t) (ht1 : t ≤ 1) :
    0 ≤ (x : ℚ) + ((y : ℚ) - (x : ℚ)) * t ∧
      (x : ℚ) + ((y : ℚ) - (x : ℚ)) * t ≤ 255 := by
  have hx0' : (0 : ℚ) ≤ (x : ℚ) := by exact_mod_cast hx0
  have hx' : (x : ℚ) ≤ 255 := by exact_mod_cast hx
  have hy0' : (0 : ℚ) ≤ (y : ℚ) := by exact_mod_cast hy0
  have hy' : (y : ℚ) ≤ 255 := by exact_mod_cast hy
  constructor
  · rcases le_total (x : ℚ) (y : ℚ) with hle | hle
    · nlinarith
    · nlinarith
  · rcases le_total (x : ℚ) (y : ℚ) with hle | hle
    · nlinarith
    · nlinarith

/-- For valid endpoint channels and `t ∈ [0,1]`, the truncated interpolant
is already in `[0,255]`, so `__post_init__`'s clamp is the identity. -/
theorem clamp_trunc_lerp {x y : ℤ} {t : ℚ}
    (hx0 : 0 ≤ x) (hx : x ≤ 255) (hy0 : 0 ≤ y) (hy : y ≤ 255)
    (ht0 : 0 ≤ t) (ht1 : t ≤ 1) :
    clampChan (truncQ ((x : ℚ) + ((y : ℚ) - (x : ℚ)) * t)) =
      truncQ ((x : ℚ) + ((y : ℚ) - (x : ℚ)) * t) := by
  obtain ⟨hv0, hv255⟩ := lerp_channel_bounds hx0 hx hy0 hy ht0 ht1
  rw [truncQ_of_nonneg hv0]
  refine clampChan_eq_self (Int.floor_nonneg.mpr hv0) ?_
  have := Int.floor_le_floor hv255
  simpa using this

/-- C9: `Color.lerp` computes each of the four channels independently as the
integer truncation (not rounding) of `start + (end - start) * t`; for valid
channels and `t ∈ [0,1]` the `__post_init__` clamp is the identity, and the
concrete scenario `(0,0,0,255) → (255,255,255,255)` at `t = 1/2` yields
exactly `(127,127,127,255)`. -/
theorem color_lerp_truncates (c o : Color) (t : ℚ)
    (hc : c.Valid) (ho : o.Valid) (ht0 : 0 ≤ t) (ht1 : t ≤ 1) :
    (c.lerp o t).r = truncQ ((c.r : ℚ) + ((o.r : ℚ) - (c.r : ℚ)) * t) ∧
    (c.lerp o t).g = truncQ ((c.g : ℚ) + ((o.g : ℚ) - (c.g : ℚ)) * t) ∧
    (c.lerp o t).b = truncQ ((c.b : ℚ) + ((o.b : ℚ) - (c.b : ℚ)) * t) ∧
    (c.lerp o t).a = truncQ ((c.a : ℚ) + ((o.a : ℚ) - (c.a : ℚ)) * t) ∧
    (mkColor 0 0 0 255).lerp (mkColor 255 255 255 255) (1 / 2) =
      mkColor 127 127 127 255 := by
  obtain ⟨hr0, hr, hg0, hg, hb0, hb, ha0, ha⟩ := hc
  obtain ⟨hr0', hr', hg0', hg', hb0', hb', ha0', ha'⟩ := ho
  refine ⟨?_, ?_, ?_, ?_, ?_⟩
  · exact clamp_trunc_lerp hr0 hr hr0' hr' ht0 ht1
  · exact clamp_trunc_lerp hg0 hg hg0' hg' ht0 ht1
  · exact clamp_trunc_lerp hb0 hb hb0' hb' ht0 ht1
  · exact clamp_trunc_lerp ha0 ha ha0' ha' ht0 ht1
  · norm_num [Color.lerp, mkColor, truncQ, clampChan]

/-- Witness for C9 at a concrete input: the scenario colors and `t = 1/2`. -/
theorem color_lerp_truncates_witness :
    ((mkColor 10 20 30 255).lerp (mkColor 255 0 255 255) (1 / 2)).r =
      truncQ (((mkColor 10 20 30 255).r : ℚ) +
        (((mkColor 255 0 255 255).r : ℚ) - ((mkColor 10 20 30 255).r : ℚ)) *
          (1 / 2)) := by
  exact (color_lerp_truncates (mkColor 10 20 30 255) (mkColor 255 0 255 255)
    (1 / 2) (by decide) (by decide) (by norm_num) (by norm_num)).1

/-- Witness sanity check: the truncating (not rounding) behaviour at the
witness input, evaluated concretely (`10 + 245 * (1/2) = 132.5 ↦ 132`). -/
theorem color_lerp_witness_value :
    ((mkColor 10 20 30 255).lerp (mkColor 255 0 255 255) (1 / 2)).r = 132 := by
  norm_num [Color.lerp, mkColor, truncQ, clampChan]

/-! ## Lemmas about `Window._apply_changes` (claims C2, C6) -/

/-- `_apply_changes` on a window with no pending flags and no time-driven
content change is a no-op: same state, no effects.  (The closed case also
returns `(w, [])`, so `closed` is not needed here.) -/
theorem applyChanges_clean (gifUpd : γ → ℚ → γ × Bool)
    (vidUpd : δ → ℚ → δ × Bool) (w : Win γ δ) (dt : ℚ)
    (hp : w.position_dirty = false) (hs : w.size_dirty = false)
    (ho : w.opacity_dirty = false) (hd : w.dirty = false)
    (ht : (w.text_dirty && w.textRenderer) = false)
    (hcontent : (w.gif = none ∧ w.video = none) ∨ dt = 0) :
    applyChanges gifUpd vidUpd w dt = (w, []) := by
  obtain ⟨x, y, ww, hh, op, col, cl, pd, sd, od, d, td, tr, g, v⟩ := w
  simp only at hp hs ho hd ht
  subst hp hs ho hd
  rcases hcontent with ⟨hg, hv⟩ | hdt
  · simp only at hg hv
    subst hg hv
    cases cl <;> cases td <;> cases tr <;>
      simp_all [applyChanges, flushPosition, flushSize, flushOpacity,
        stepGif, stepVideo, flushText, finalRender]
  · subst hdt
    cases cl <;> cases td <;> cases tr <;> cases g <;> cases v <;>
      simp_all [applyChanges, flushPosition, flushSize, flushOpacity,
        stepGif, stepVideo, flushText, finalRender]

/-- After one `_apply_changes` on an open window with no time-driven content
(or `dt = 0`), every dirty flag is clear and the content slots are
untouched. -/
theorem applyChanges_resets (gifUpd : γ → ℚ → γ × Bool)
    (vidUpd : δ → ℚ → δ × Bool) (w : Win γ δ) (dt : ℚ)
    (hopen : w.closed = false)
    (hcontent : (w.gif = none ∧ w.video = none) ∨ dt = 0) :
    (applyChanges gifUpd vidUpd w dt).1.position_dirty = false ∧
    (applyChanges gifUpd vidUpd w dt).1.size_dirty = false ∧
    (applyChanges gifUpd vidUpd w dt).1.opacity_dirty = false ∧
    (applyChanges gifUpd vidUpd w dt).1.dirty = false ∧
    ((applyChanges gifUpd vidUpd w dt).1.text_dirty &&
      (applyChanges gifUpd vidUpd w dt).1.textRenderer) = false ∧
    (applyChanges gifUpd vidUpd w dt).1.gif = w.gif ∧
    (applyChanges gifUpd vidUpd w dt).1.video = w.video ∧
    (applyChanges gifUpd vidUpd w dt).1.closed = false := by
  obtain ⟨x, y, ww, hh, op, col, cl, pd, sd, od, d, td, tr, g, v⟩ := w
  simp only at hopen
  subst hopen
  rcases hcontent with ⟨hg, hv⟩ | hdt
  · simp only at hg hv
    subst hg hv
    cases pd <;> cases sd <;> cases od <;> cases d <;> cases td <;>
      cases tr <;>
      simp [applyChanges, flushPosition, flushSize, flushOpacity,
        stepGif, stepVideo, flushText, finalRender]
  · subst hdt
    cases g <;> cases v <;> cases pd <;> cases sd <;> cases od <;>
      cases d <;> cases td <;> cases tr <;>
      simp [applyChanges, flushPosition, flushSize, flushOpacity,
        stepGif, stepVideo, flushText, finalRender]

/-- C2: on an open window with no time-driven content (or `dt = 0`):
a second `_apply_changes` with no intervening writes is a complete no-op
(same state, zero effects); `_apply_changes` with no pending flags performs
zero side effects; and each flush block clears only its own dirty flag
(never another one). -/
theorem apply_changes_idempotent (gifUpd : γ → ℚ → γ × Bool)
    (vidUpd : δ → ℚ → δ × Bool) (w : Win γ δ) (dt : ℚ)
    (hopen : w.closed = false)
    (hcontent : (w.gif = none ∧ w.video = none) ∨ dt = 0) :
    (applyChanges gifUpd vidUpd (applyChanges gifUpd vidUpd w dt).1 dt =
      ((applyChanges gifUpd vidUpd w dt).1, [])) ∧
    (w.position_dirty = false → w.size_dirty = false →
      w.opacity_dirty = false → w.dirty = false →
      (w.text_dirty && w.textRenderer) = false →
      applyChanges gifUpd vidUpd w dt = (w, [])) ∧
    ((flushPosition w).1.position_dirty = false ∧
      (flushPosition w).1.size_dirty = w.size_dirty ∧
      (flushPosition w).1.opacity_dirty = w.opacity_dirty ∧
      (flushPosition w).1.dirty = w.dirty ∧
      (flushPosition w).1.text_dirty = w.text_dirty) ∧
    ((flushSize w).1.size_dirty = false ∧
      (flushSize w).1.position_dirty = w.position_dirty ∧
      (flushSize w).1.opacity_dirty = w.opacity_dirty ∧
      (w.dirty = true → (flushSize w).1.dirty = true) ∧
      (w.text_dirty = true → (flushSize w).1.text_dirty = true)) ∧
    ((flushOpacity w).1.opacity_dirty = false ∧
      (flushOpacity w).1.position_dirty = w.position_dirty ∧
      (flushOpacity w).1.size_dirty = w.size_dirty ∧
      (flushOpacity w).1.dirty = w.dirty ∧
      (flushOpacity w).1.text_dirty = w.text_dirty) := by
  obtain ⟨h1, h2, h3, h4, h5, h6, h7, h8⟩ :=
    applyChanges_resets gifUpd vidUpd w dt hopen hcontent
  refine ⟨?_, ?_, ?_, ?_, ?_⟩
  · refine applyChanges_clean gifUpd vidUpd _ dt h1 h2 h3 h4 h5 ?_
    rcases hcontent with ⟨hg, hv⟩ | hdt
    · exact Or.inl ⟨h6.trans hg, h7.trans hv⟩
    · exact Or.inr hdt
  · intro hp hs ho hd ht
    exact applyChanges_clean gifUpd vidUpd w dt hp hs ho hd ht hcontent
  · cases hp : w.position_dirty <;> simp [flushPosition, hp]
  · cases hs : w.size_dirty <;>
      cases htr : w.textRenderer <;> simp [flushSize, hs, htr]
  · cases ho : w.opacity_dirty <;> simp [flushOpacity, ho]

/-- A concrete open window used by witnesses: position freshly written
(`position_dirty`), everything else clean, no media content. -/
def wOpen : Win Unit Unit :=
  { x := 5, y := 6, w := 100, h := 50, opacity := 1,
    color := mkColor 255 255 255 255, closed := false,
    position_dirty := true, size_dirty := false, opacity_dirty := false,
    dirty := false, text_dirty := false, textRenderer := false,
    gif := none, video := none }

/-- The trivial content update functions used by witnesses. -/
def noUpd : Unit → ℚ → Unit × Bool := fun u _ => (u, false)

/-- Witness for C2 at a concrete window. -/
theorem apply_changes_idempotent_witness :
    applyChanges noUpd noUpd (applyChanges noUpd noUpd wOpen 0).1 0 =
      ((applyChanges noUpd noUpd wOpen 0).1, []) :=
  (apply_changes_idempotent noUpd noUpd wOpen 0 rfl (Or.inl ⟨rfl, rfl⟩)).1

/-- C6: `_apply_changes` on a closed window is a safe no-op: it returns the
window unchanged with zero side effects, for every `dt`. -/
theorem apply_changes_closed_noop (gifUpd : γ → ℚ → γ × Bool)
    (vidUpd : δ → ℚ → δ × Bool) (w : Win γ δ) (dt : ℚ)
    (hclosed : w.closed = true) :
    applyChanges gifUpd vidUpd w dt = (w, []) := by
  unfold applyChanges
  simp [hclosed]

/-- Witness for C6 at a concrete closed window. -/
theorem apply_changes_closed_noop_witness :
    applyChanges noUpd noUpd { wOpen with closed := true } 7 =
      ({ wOpen with closed := true }, []) :=
  apply_changes_closed_noop noUpd noUpd { wOpen with closed := true } 7 rfl

/-! ## Window lifecycle and the opacity invariant (claim C10) -/

/-- `Window.__init__` for the plain construction path (no `image` / `gif` /
`video` / `text` argument): logical values stored directly — note
`self._opacity = opacity` does NOT go through the clamping property setter —
and after the initial render every dirty flag is clear
(`self._dirty = False` at the end of construction). -/
def initWindow (x y w h : ℚ) (color : Color) (opacity : ℚ) : Win γ δ :=
  { x := x, y := y, w := w, h := h, opacity := opacity, color := color,
    closed := false, position_dirty := false, size_dirty := false,
    opacity_dirty := false, dirty := false, text_dirty := false,
    textRenderer := false, gif := none, video := none }

/-- `Window.close()`: early-return if already closed; otherwise mark closed
and destroy the image/GIF/video/text resources. -/
def Win.close (w : Win γ δ) : Win γ δ :=
  if w.closed then w
  else { w with
          closed := true
          gif := none
          video := none
          textRenderer := false
          text_dirty := false }

/-- The operations a caller (including the animation engine) can perform on
a window's logical state: the property setters of `window.py`, the
`position` / `size` tuple setters, `_apply_changes`, and `close`. -/
inductive WinOp : Type where
  | setX (v : ℚ)
  | setY (v : ℚ)
  | setW (v : ℚ)
  | setH (v : ℚ)
  | setPosition (x y : ℚ)
  | setSize (w h : ℚ)
  | setOpacity (v : ℚ)
  | setColor (c : Color)
  | applyC (dt : ℚ)
  | close
  deriving Repr

/-- `Window.position` setter: set both coordinates, mark `_position_dirty`. -/
def Win.setPosition (w : Win γ δ) (x y : ℚ) : Win γ δ :=
  { w with x := x, y := y, position_dirty := true }

/-- `Window.size` setter: set both extents, mark `_size_dirty`. -/
def Win.setSize (w : Win γ δ) (ww hh : ℚ) : Win γ δ :=
  { w with w := ww, h := hh, size_dirty := true }

/-- Run one `WinOp` on a window. -/
def runOp (gifUpd : γ → ℚ → γ × Bool) (vidUpd : δ → ℚ → δ × Bool)
    (w : Win γ δ) : WinOp → Win γ δ
  | .setX v => w.setX v
  | .setY v => w.setY v
  | .setW v => w.setW v
  | .setH v => w.setH v
  | .setPosition x y => w.setPosition x y
  | .setSize ww hh => w.setSize ww hh
  | .setOpacity v => w.setOpacity v
  | .setColor c => w.setColorC c
  | .applyC dt => (applyChanges gifUpd vidUpd w dt).1
  | .close => w.close

/-- Run a sequence of `WinOp`s left to right. -/
def runOps (gifUpd : γ → ℚ → γ × Bool) (vidUpd : δ → ℚ → δ × Bool)
    (w : Win γ δ) (ops : List WinOp) : Win γ δ :=
  ops.foldl (runOp gifUpd vidUpd) w

/-- `flushPosition` leaves the stored opacity value unchanged. -/
theorem flushPosition_opacity (w : Win γ δ) :
    (flushPosition w).1.opacity = w.opacity := by
  unfold flushPosition; split <;> rfl

/-- `flushSize` leaves the stored opacity value unchanged. -/
theorem flushSize_opacity (w : Win γ δ) :
    (flushSize w).1.opacity = w.opacity := by
  unfold flushSize; split <;> rfl

/-- `flushOpacity` flushes the stored opacity to SDL but does not change
it. -/
theorem flushOpacity_opacity (w : Win γ δ) :
    (flushOpacity w).1.opacity = w.opacity := by
  unfold flushOpacity; split <;> rfl

/-- The GIF block leaves the stored opacity value unchanged. -/
theorem stepGif_opacity (gifUpd : γ → ℚ → γ × Bool) (dt : ℚ)
    (w : Win γ δ) : (stepGif gifUpd dt w).1.opacity = w.opacity := by
  unfold stepGif
  cases hg : w.gif
  · rfl
  · dsimp only
    split
    · split <;> rfl
    · rfl

/-- The video block leaves the stored opacity value unchanged. -/
theorem stepVideo_opacity (vidUpd : δ → ℚ → δ × Bool) (dt : ℚ)
    (w : Win γ δ) : (stepVideo vidUpd dt w).1.opacity = w.opacity := by
  unfold stepVideo
  cases hv : w.video
  · rfl
  · dsimp only
    split
    · split <;> rfl
    · rfl

/-- The text block leaves the stored opacity value unchanged. -/
theorem flushText_opacity (w : Win γ δ) :
    (flushText w).1.opacity = w.opacity := by
  unfold flushText; split <;> rfl

/-- The final render block leaves the stored opacity value unchanged. -/
theorem finalRender_opacity (w : Win γ δ) :
    (finalRender w).1.opacity = w.opacity := by
  unfold finalRender; split <;> rfl

/-- `_apply_changes` never changes the stored opacity value (it only flushes
it to SDL and clears the flag). -/
theorem applyChanges_opacity (gifUpd : γ → ℚ → γ × Bool)
    (vidUpd : δ → ℚ → δ × Bool) (w : Win γ δ) (dt : ℚ) :
    (applyChanges gifUpd vidUpd w dt).1.opacity = w.opacity := by
  unfold applyChanges
  split
  · rfl
  · simp only [finalRender_opacity, flushText_opacity, stepVideo_opacity,
      stepGif_opacity, flushOpacity_opacity, flushSize_opacity,
      flushPosition_opacity]

/-- One operation preserves `opacity ∈ [0, 1]`. -/
theorem runOp_opacity_bounds (gifUpd : γ → ℚ → γ × Bool)
    (vidUpd : δ → ℚ → δ × Bool) (w : Win γ δ) (o : WinOp)
    (h0 : 0 ≤ w.opacity) (h1 : w.opacity ≤ 1) :
    0 ≤ (runOp gifUpd vidUpd w o).opacity ∧
      (runOp gifUpd vidUpd w o).opacity ≤ 1 := by
  cases o with
  | setX v => exact ⟨h0, h1⟩
  | setY v => exact ⟨h0, h1⟩
  | setW v => exact ⟨h0, h1⟩
  | setH v => exact ⟨h0, h1⟩
  | setPosition x y => exact ⟨h0, h1⟩
  | setSize ww hh => exact ⟨h0, h1⟩
  | setOpacity v =>
    show 0 ≤ max 0 (min 1 v) ∧ max 0 (min 1 v) ≤ 1
    exact ⟨le_max_left 0 _, max_le (by norm_num) (min_le_left 1 v)⟩
  | setColor c => exact ⟨h0, h1⟩
  | applyC dt =>
    have := applyChanges_opacity gifUpd vidUpd w dt
    simp only [runOp, this]
    exact ⟨h0, h1⟩
  | close =>
    show 0 ≤ (Win.close w).opacity ∧ (Win.close w).opacity ≤ 1
    unfold Win.close
    split <;> exact ⟨h0, h1⟩

/-- C10 (amended): for every window whose stored opacity starts in `[0, 1]`
(in particular any window constructed with an in-range `opacity` argument,
and any window after its first write through the opacity setter), every
sequence of operations leaves the stored opacity in `[0, 1]` — the opacity
setter clamps each written value. -/
theorem opacity_invariant (gifUpd : γ → ℚ → γ × Bool)
    (vidUpd : δ → ℚ → δ × Bool) (w : Win γ δ) (ops : List WinOp)
    (h0 : 0 ≤ w.opacity) (h1 : w.opacity ≤ 1) :
    0 ≤ (runOps gifUpd vidUpd w ops).opacity ∧
      (runOps gifUpd vidUpd w ops).opacity ≤ 1 := by
  induction ops generalizing w with
  | nil => exact ⟨h0, h1⟩
  | cons o rest ih =>
    obtain ⟨g0, g1⟩ := runOp_opacity_bounds gifUpd vidUpd w o h0 h1
    exact ih _ g0 g1

/-- Witness for C10 (amended) at a concrete window and op sequence: a `fade`
to an out-of-range destination (`opacity := 3/2`) still leaves the stored
opacity within `[0, 1]`. -/
theorem opacity_invariant_witness :
    0 ≤ (runOps noUpd noUpd wOpen [.setOpacity (3 / 2), .applyC 0]).opacity ∧
      (runOps noUpd noUpd wOpen [.setOpacity (3 / 2), .applyC 0]).opacity ≤ 1 :=
  opacity_invariant noUpd noUpd wOpen [.setOpacity (3 / 2), .applyC 0]
    (by norm_num [wOpen]) (by norm_num [wOpen])

/-- Counterexample to C10 as stated: `Window.__init__` assigns
`self._opacity = opacity` directly, bypassing the clamping property setter,
so a window constructed with `opacity = 2.0` holds a stored opacity outside
`[0, 1]` (before any operation). -/
theorem opacity_invariant_counterexample :
    ¬ ((initWindow (γ := Unit) (δ := Unit) 0 0 100 100
        (mkColor 255 255 255 255) 2).opacity ≤ 1) := by
  norm_num [initWindow]

/-! ## Tween generators (`animate.py`, claim C1)

A Python generator such as `_move_gen` runs no code until its first
`next()`; at that point it captures the start values and the start time,
and then on every `next()` computes `elapsed`, force-writes the end value
and returns (`StopIteration`) once `elapsed >= duration`, else writes the
interpolated value and yields.  We model a generator as a step function on
an explicit state, fed the observed `elapsed` sample of each `next()`
call. -/

/-- `_lerp(a, b, t) = a + (b - a) * t`. -/
def lerp (a b t : ℚ) : ℚ :=
  a + (b - a) * t

/-- State of a tween generator with captured start value(s) of type `α`:
not yet started (start not captured), running (start captured at first
advance), or finished (`StopIteration` raised). -/
inductive TweenSt (α : Type) where
  | notStarted
  | running (s : α)
  | finished
  deriving DecidableEq, Repr

/-- One `next()` of `_move_gen(win, x, y, duration, ease)`.  On the first
advance the start position `(win.x, win.y)` is captured; each advance with
`elapsed >= duration` writes the exact destination and finishes, otherwise
it writes the eased interpolation and yields.  A finished generator stays
finished with no further writes. -/
def moveGenStep (x y D : ℚ) (ease : ℚ → ℚ) :
    TweenSt (ℚ × ℚ) × Win γ δ → ℚ → TweenSt (ℚ × ℚ) × Win γ δ
  | (.notStarted, w), e =>
    if D ≤ e then (.finished, (w.setX x).setY y)
    else
      (.running (w.x, w.y),
        (w.setX (lerp w.x x (ease (e / D)))).setY (lerp w.y y (ease (e / D))))
  | (.running s, w), e =>
    if D ≤ e then (.finished, (w.setX x).setY y)
    else
      (.running s,
        (w.setX (lerp s.1 x (ease (e / D)))).setY (lerp s.2 y (ease (e / D))))
  | (.finished, w), _ => (.finished, w)

/-- Run `_move_gen` over a list of observed `elapsed` samples. -/
def moveGenRun (x y D : ℚ) (ease : ℚ → ℚ)
    (st : TweenSt (ℚ × ℚ) × Win γ δ) (es : List ℚ) :
    TweenSt (ℚ × ℚ) × Win γ δ :=
  es.foldl (moveGenStep x y D ease) st

/-- One `next()` of `_resize_gen(win, w, h, duration, ease)`. -/
def resizeGenStep (ww hh D : ℚ) (ease : ℚ → ℚ) :
    TweenSt (ℚ × ℚ) × Win γ δ → ℚ → TweenSt (ℚ × ℚ) × Win γ δ
  | (.notStarted, w), e =>
    if D ≤ e then (.finished, (w.setW ww).setH hh)
    else
      (.running (w.w, w.h),
        (w.setW (lerp w.w ww (ease (e / D)))).setH (lerp w.h hh (ease (e / D))))
  | (.running s, w), e =>
    if D ≤ e then (.finished, (w.setW ww).setH hh)
    else
      (.running s,
        (w.setW (lerp s.1 ww (ease (e / D)))).setH (lerp s.2 hh (ease (e / D))))
  | (.finished, w), _ => (.finished, w)

/-- Run `_resize_gen` over a list of observed `elapsed` samples. -/
def resizeGenRun (ww hh D : ℚ) (ease : ℚ → ℚ)
    (st : TweenSt (ℚ × ℚ) × Win γ δ) (es : List ℚ) :
    TweenSt (ℚ × ℚ) × Win γ δ :=
  es.foldl (resizeGenStep ww hh D ease) st

/-- One `next()` of `_fade_gen(win, opacity, duration, ease)`; writes go
through the clamping opacity setter. -/
def fadeGenStep (o D : ℚ) (ease : ℚ → ℚ) :
    TweenSt ℚ × Win γ δ → ℚ → TweenSt ℚ × Win γ δ
  | (.notStarted, w), e =>
    if D ≤ e then (.finished, w.setOpacity o)
    else
      (.running w.opacity,
        w.setOpacity (lerp w.opacity o (ease (e / D))))
  | (.running s, w), e =>
    if D ≤ e then (.finished, w.setOpacity o)
    else (.running s, w.setOpacity (lerp s o (ease (e / D))))
  | (.finished, w), _ => (.finished, w)

/-- Run `_fade_gen` over a list of observed `elapsed` samples. -/
def fadeGenRun (o D : ℚ) (ease : ℚ → ℚ)
    (st : TweenSt ℚ × Win γ δ) (es : List ℚ) :
    TweenSt ℚ × Win γ δ :=
  es.foldl (fadeGenStep o D ease) st

/-- One `next()` of `_color_gen(win, color, duration, ease)`; intermediate
writes store `start_color.lerp(color, t)` (truncating channel
interpolation), the final write stores the exact destination color. -/
def colorGenStep (c : Color) (D : ℚ) (ease : ℚ → ℚ) :
    TweenSt Color × Win γ δ → ℚ → TweenSt Color × Win γ δ
  | (.notStarted, w), e =>
    if D ≤ e then (.finished, w.setColorC c)
    else
      (.running w.color, w.setColorC (w.color.lerp c (ease (e / D))))
  | (.running s, w), e =>
    if D ≤ e then (.finished, w.setColorC c)
    else (.running s, w.setColorC (s.lerp c (ease (e / D))))
  | (.finished, w), _ => (.finished, w)

/-- Run `_color_gen` over a list of observed `elapsed` samples. -/
def colorGenRun (c : Color) (D : ℚ) (ease : ℚ → ℚ)
    (st : TweenSt Color × Win γ δ) (es : List ℚ) :
    TweenSt Color × Win γ δ :=
  es.foldl (colorGenStep c D ease) st

section TweenGeneric

variable {α : Type} (step : TweenSt α × Win γ δ → ℚ → TweenSt α × Win γ δ)
  (D : ℚ) (capture : Win γ δ → α) (writeEnd : Win γ δ → Win γ δ)
  (writeMid : α → ℚ → Win γ δ → Win γ δ)

/-- Generic tween lemma: from a running state with captured start `s`, a run
whose samples are all `< D` stays running with the same `s` and leaves the
window holding the interpolant of the last sample. -/
theorem tween_fold_run_mid
    (hrun : ∀ (s : α) (w : Win γ δ) e, step (.running s, w) e =
      if D ≤ e then (.finished, writeEnd w)
      else (.running s, writeMid s e w))
    (hmm : ∀ s e e' w, writeMid s e' (writeMid s e w) = writeMid s e' w)
    (s : α) (wc : Win γ δ) (es : List ℚ) (e : ℚ)
    (hlt : ∀ u ∈ es, u < D) (he : e < D) :
    List.foldl step (.running s, wc) (es ++ [e]) =
      (.running s, writeMid s e wc) := by
  induction es generalizing wc with
  | nil => simp [hrun, if_neg (not_le.mpr he)]
  | cons u us ih =>
    have hu : u < D := hlt u (by simp)
    have hus : ∀ v ∈ us, v < D := fun v hv => hlt v (by simp [hv])
    rw [List.cons_append, List.foldl_cons, hrun, if_neg (not_le.mpr hu),
      ih _ hus, hmm]

/-- Generic tween lemma: from a running state, a run whose last sample is
`≥ D` (and earlier samples `< D`) finishes with the exact end write. -/
theorem tween_fold_run_complete
    (hrun : ∀ (s : α) (w : Win γ δ) e, step (.running s, w) e =
      if D ≤ e then (.finished, writeEnd w)
      else (.running s, writeMid s e w))
    (hme : ∀ s e w, writeEnd (writeMid s e w) = writeEnd w)
    (s : α) (wc : Win γ δ) (es : List ℚ) (e : ℚ)
    (hlt : ∀ u ∈ es, u < D) (he : D ≤ e) :
    List.foldl step (.running s, wc) (es ++ [e]) =
      (.finished, writeEnd wc) := by
  induction es generalizing wc with
  | nil => simp [hrun, if_pos he]
  | cons u us ih =>
    have hu : u < D := hlt u (by simp)
    have hus : ∀ v ∈ us, v < D := fun v hv => hlt v (by simp [hv])
    rw [List.cons_append, List.foldl_cons, hrun, if_neg (not_le.mpr hu),
      ih _ hus, hme]

/-- Generic tween lemma: from the initial state, a run whose samples are all
`< D` captures the start from the window at the first advance, keeps it
unchanged, and leaves the window holding the interpolant of the last
sample. -/
theorem tween_fold_mid
    (hnot : ∀ (w : Win γ δ) e, step (.notStarted, w) e =
      if D ≤ e then (.finished, writeEnd w)
      else (.running (capture w), writeMid (capture w) e w))
    (hrun : ∀ (s : α) (w : Win γ δ) e, step (.running s, w) e =
      if D ≤ e then (.finished, writeEnd w)
      else (.running s, writeMid s e w))
    (hmm : ∀ s e e' w, writeMid s e' (writeMid s e w) = writeMid s e' w)
    (w : Win γ δ) (es : List ℚ) (e : ℚ)
    (hlt : ∀ u ∈ es, u < D) (he : e < D) :
    List.foldl step (.notStarted, w) (es ++ [e]) =
      (.running (capture w), writeMid (capture w) e w) := by
  cases es with
  | nil => simp [hnot, if_neg (not_le.mpr he)]
  | cons u us =>
    have hu : u < D := hlt u (by simp)
    have hus : ∀ v ∈ us, v < D := fun v hv => hlt v (by simp [hv])
    rw [List.cons_append, List.foldl_cons, hnot, if_neg (not_le.mpr hu),
      tween_fold_run_mid step D writeEnd writeMid hrun hmm _ _ us e hus he,
      hmm]

/-- Generic tween lemma: from the initial state, the first sample `≥ D`
(after samples `< D`) finishes the tween with the exact end write applied
to the original window values. -/
theorem tween_fold_complete
    (hnot : ∀ (w : Win γ δ) e, step (.notStarted, w) e =
      if D ≤ e then (.finished, writeEnd w)
      else (.running (capture w), writeMid (capture w) e w))
    (hrun : ∀ (s : α) (w : Win γ δ) e, step (.running s, w) e =
      if D ≤ e then (.finished, writeEnd w)
      else (.running s, writeMid s e w))
    (hme : ∀ s e w, writeEnd (writeMid s e w) = writeEnd w)
    (w : Win γ δ) (es : List ℚ) (e : ℚ)
    (hlt : ∀ u ∈ es, u < D) (he : D ≤ e) :
    List.foldl step (.notStarted, w) (es ++ [e]) =
      (.finished, writeEnd w) := by
  cases es with
  | nil => simp [hnot, if_pos he]
  | cons u us =>
    have hu : u < D := hlt u (by simp)
    have hus : ∀ v ∈ us, v < D := fun v hv => hlt v (by simp [hv])
    rw [List.cons_append, List.foldl_cons, hnot, if_neg (not_le.mpr hu),
      tween_fold_run_complete step D writeEnd writeMid hrun hme _ _ us e
        hus he, hme]

end TweenGeneric

/-- C1 (amended): for every tween generator with duration `D > 0`, advanced
on `elapsed` samples `es ++ [e]` with every sample in `es` below `D`:
if `D ≤ e` (first advance reaching the duration), the generator writes
exactly the requested end value(s) through the target's property setters
and finishes; if `e < D`, it stays running, the start value captured at the
first advance is used unchanged, and the target holds the interpolation of
the last sample — exactly `start + (end - start) * ease(e / D)` for move
and resize, that value put through the clamping opacity setter for fade,
and the truncating `Color.lerp` of that `t` for color. -/
theorem tween_generator_behaviour (w : Win γ δ) (D : ℚ) (ease : ℚ → ℚ)
    (es : List ℚ) (e : ℚ) (hD : 0 < D) (hlt : ∀ u ∈ es, u < D) :
    (∀ x y, D ≤ e →
      moveGenRun x y D ease (.notStarted, w) (es ++ [e]) =
        (.finished, (w.setX x).setY y)) ∧
    (∀ x y, e < D →
      moveGenRun x y D ease (.notStarted, w) (es ++ [e]) =
        (.running (w.x, w.y),
          (w.setX (lerp w.x x (ease (e / D)))).setY
            (lerp w.y y (ease (e / D))))) ∧
    (∀ ww hh, D ≤ e →
      resizeGenRun ww hh D ease (.notStarted, w) (es ++ [e]) =
        (.finished, (w.setW ww).setH hh)) ∧
    (∀ ww hh, e < D →
      resizeGenRun ww hh D ease (.notStarted, w) (es ++ [e]) =
        (.running (w.w, w.h),
          (w.setW (lerp w.w ww (ease (e / D)))).setH
            (lerp w.h hh (ease (e / D))))) ∧
    (∀ o, D ≤ e →
      fadeGenRun o D ease (.notStarted, w) (es ++ [e]) =
        (.finished, w.setOpacity o)) ∧
    (∀ o, e < D →
      fadeGenRun o D ease (.notStarted, w) (es ++ [e]) =
        (.running w.opacity,
          w.setOpacity (lerp w.opacity o (ease (e / D))))) ∧
    (∀ c, D ≤ e →
      colorGenRun c D ease (.notStarted, w) (es ++ [e]) =
        (.finished, w.setColorC c)) ∧
    (∀ c, e < D →
      colorGenRun c D ease (.notStarted, w) (es ++ [e]) =
        (.running w.color,
          w.setColorC (w.color.lerp c (ease (e / D))))) := by
  refine ⟨?_, ?_, ?_, ?_, ?_, ?_, ?_, ?_⟩
  · intro x y he
    exact tween_fold_complete (moveGenStep x y D ease) D
      (fun w => (w.x, w.y)) (fun w => (w.setX x).setY y)
      (fun s e w => (w.setX (lerp s.1 x (ease (e / D)))).setY
        (lerp s.2 y (ease (e / D))))
      (fun _ _ => rfl) (fun _ _ _ => rfl) (fun _ _ _ => rfl) w es e hlt he
  · intro x y he
    exact tween_fold_mid (moveGenStep x y D ease) D
      (fun w => (w.x, w.y)) (fun w => (w.setX x).setY y)
      (fun s e w => (w.setX (lerp s.1 x (ease (e / D)))).setY
        (lerp s.2 y (ease (e / D))))
      (fun _ _ => rfl) (fun _ _ _ => rfl) (fun _ _ _ _ => rfl) w es e hlt he
  · intro ww hh he
    exact tween_fold_complete (resizeGenStep ww hh D ease) D
      (fun w => (w.w, w.h)) (fun w => (w.setW ww).setH hh)
      (fun s e w => (w.setW (lerp s.1 ww (ease (e / D)))).setH
        (lerp s.2 hh (ease (e / D))))
      (fun _ _ => rfl) (fun _ _ _ => rfl) (fun _ _ _ => rfl) w es e hlt he
  · intro ww hh he
    exact tween_fold_mid (resizeGenStep ww hh D ease) D
      (fun w => (w.w, w.h)) (fun w => (w.setW ww).setH hh)
      (fun s e w => (w.setW (lerp s.1 ww (ease (e / D)))).setH
        (lerp s.2 hh (ease (e / D))))
      (fun _ _ => rfl) (fun _ _ _ => rfl) (fun _ _ _ _ => rfl) w es e hlt he
  · intro o he
    exact tween_fold_complete (fadeGenStep o D ease) D
      (fun w => w.opacity) (fun w => w.setOpacity o)
      (fun s e w => w.setOpacity (lerp s o (ease (e / D))))
      (fun _ _ => rfl) (fun _ _ _ => rfl) (fun _ _ _ => rfl) w es e hlt he
  · intro o he
    exact tween_fold_mid (fadeGenStep o D ease) D
      (fun w => w.opacity) (fun w => w.setOpacity o)
      (fun s e w => w.setOpacity (lerp s o (ease (e / D))))
      (fun _ _ => rfl) (fun _ _ _ => rfl) (fun _ _ _ _ => rfl) w es e hlt he
  · intro c he
    exact tween_fold_complete (colorGenStep c D ease) D
      (fun w => w.color) (fun w => w.setColorC c)
      (fun s e w => w.setColorC (s.lerp c (ease (e / D))))
      (fun _ _ => rfl) (fun _ _ _ => rfl) (fun _ _ _ => rfl) w es e hlt he
  · intro c he
    exact tween_fold_mid (colorGenStep c D ease) D
      (fun w => w.color) (fun w => w.setColorC c)
      (fun s e w => w.setColorC (s.lerp c (ease (e / D))))
      (fun _ _ => rfl) (fun _ _ _ => rfl) (fun _ _ _ _ => rfl) w es e hlt he

/-- Witness for C1 (amended) at a concrete run: a move tween with duration 1,
samples `[1/2, 1]`, finishes on the second advance with the exact end
position written. -/
theorem tween_generator_behaviour_witness :
    moveGenRun 7 8 1 (fun t => t) (.notStarted, wOpen) ([1 / 2] ++ [1]) =
      (.finished, (wOpen.setX 7).setY 8) :=
  (tween_generator_behaviour wOpen 1 (fun t => t) [1 / 2] 1 (by norm_num)
      (by intro u hu; rw [List.mem_singleton] at hu; rw [hu]; norm_num)).1
    7 8 (by norm_num)

/-- Counterexample to C1 as stated: on an earlier advance of a color tween,
the stored channel value is the *truncation* of
`start + (end - start) * ease(elapsed / duration)`, not that value itself.
With start `(0,0,0,255)`, destination `(255,255,255,255)`, duration 1,
linear easing and `elapsed = 1/2`, the stored red channel is `127` while
the claimed componentwise formula gives `127.5`. -/
theorem tween_formula_counterexample :
    ¬ (((colorGenRun (mkColor 255 255 255 255) 1 (fun t => t)
          (.notStarted, { wOpen with color := mkColor 0 0 0 255 })
          [1 / 2]).2.color.r : ℚ) =
        ((mkColor 0 0 0 255).r : ℚ) +
          (((mkColor 255 255 255 255).r : ℚ) - ((mkColor 0 0 0 255).r : ℚ)) *
            ((fun t => t : ℚ → ℚ) ((1 / 2) / 1))) := by
  norm_num [colorGenRun, colorGenStep, Color.lerp, mkColor, truncQ,
    clampChan, Win.setColorC, wOpen]

/-! ## Generator combinators (`animate.py`, claims C3, C4)

A deterministic Python generator is observationally a *trace*: the batch of
side effects of each yielding `next()` call, and the batch of the final
call that raises `StopIteration` (a tween's last call still performs its
end writes before raising).  `_parallel_gen` and `_sequence_gen` only ever
call `next()` on their children, so their behaviour is a function of the
children's traces. -/

/-- The observable behaviour of one child generator: `yields` holds the
effect batch of each yielding `next()` call, `final` the effects of the
call that raises `StopIteration`. -/
structure GenTrace (ε : Type) where
  yields : List (List ε)
  final : List ε
  deriving DecidableEq, Repr

/-- `next()` on a trace: a yielding call steps to the remaining trace and
emits its batch; an exhausted trace emits its final batch and reports done
(`none`). -/
def genNext : GenTrace ε → Option (GenTrace ε) × List ε
  | ⟨[], fin⟩ => (none, fin)
  | ⟨es :: rest, fin⟩ => (some ⟨rest, fin⟩, es)

/-- Number of `next()` calls a generator consumes when run alone to
completion (the final, `StopIteration`-raising call included). -/
def callsToDone (tr : GenTrace ε) : ℕ :=
  tr.yields.length + 1

/-- The loop body of `_parallel_gen`: advance every active child once, in
order, keeping (in order) those that yielded and dropping those that raised
`StopIteration`; effects of all children (including finishing ones)
accumulate. -/
def parPass (step : σ → Option σ × List ε) : List σ → List σ × List ε
  | [] => ([], [])
  | c :: cs =>
    match step c, parPass step cs with
    | (some c', es), (rest, esr) => (c' :: rest, es ++ esr)
    | (none, es), (rest, esr) => (rest, es ++ esr)

/-- One `next()` of `_parallel_gen(animations)`: with an empty active set
the `while` loop exits and the generator raises `StopIteration` with no
effects; otherwise every active child is advanced exactly once and the
generator yields the shrunken active set. -/
def parAdvance (step : σ → Option σ × List ε) (active : List σ) :
    Option (List σ) × List ε :=
  match active with
  | [] => (none, [])
  | _ => (some (parPass step active).1, (parPass step active).2)

/-- The active set of `_parallel_gen` after `n` advances (empty forever
once the generator is done). -/
def parIter (step : σ → Option σ × List ε) (active : List σ) : ℕ → List σ
  | 0 => active
  | n + 1 => ((parAdvance step (parIter step active n)).1).getD []

/-- Children instrumented with a unique identifier; the identifier rides
along unchanged and every advance is tagged with it, so "which child was
advanced when" is observable. -/
def taggedNext (c : ℕ × GenTrace ε) :
    Option (ℕ × GenTrace ε) × List (ℕ × List ε) :=
  match genNext c.2 with
  | (some t', es) => (some (c.1, t'), [(c.1, es)])
  | (none, es) => (none, [(c.1, es)])

/-- `taggedNext` on a child whose generator raises `StopIteration`. -/
theorem taggedNext_none {t : GenTrace ε} {es : List ε}
    (h : genNext t = (none, es)) (i : ℕ) :
    taggedNext (i, t) = (none, [(i, es)]) := by
  unfold taggedNext
  rw [h]

/-- `taggedNext` on a child whose generator yields. -/
theorem taggedNext_some {t t' : GenTrace ε} {es : List ε}
    (h : genNext t = (some t', es)) (i : ℕ) :
    taggedNext (i, t) = (some (i, t'), [(i, es)]) := by
  unfold taggedNext
  rw [h]

/-- Unfolding `parPass` over a child that yields. -/
theorem parPass_cons_some {step : σ → Option σ × List ε} {c c' : σ}
    {es : List ε} (h : step c = (some c', es)) (cs : List σ) :
    parPass step (c :: cs) =
      (c' :: (parPass step cs).1, es ++ (parPass step cs).2) := by
  rcases hr : parPass step cs with ⟨rest, esr⟩
  simp only [parPass, h, hr]

/-- Unfolding `parPass` over a child that finishes. -/
theorem parPass_cons_none {step : σ → Option σ × List ε} {c : σ}
    {es : List ε} (h : step c = (none, es)) (cs : List σ) :
    parPass step (c :: cs) =
      ((parPass step cs).1, es ++ (parPass step cs).2) := by
  rcases hr : parPass step cs with ⟨rest, esr⟩
  simp only [parPass, h, hr]

/-- One parallel pass advances each active child exactly once, in order:
the emitted tag sequence is exactly the active children's ids with their
batches, and the surviving set is the in-order `filterMap` of single
steps. -/
theorem parPass_spec (cs : List (ℕ × GenTrace ε)) :
    (parPass taggedNext cs).2 =
      cs.map (fun c => (c.1, (genNext c.2).2)) ∧
    (parPass taggedNext cs).1 = cs.filterMap (fun c => (taggedNext c).1) := by
  induction cs with
  | nil => exact ⟨rfl, rfl⟩
  | cons c cs ih =>
    obtain ⟨ih2, ih1⟩ := ih
    obtain ⟨i, t⟩ := c
    rcases hg : genNext t with ⟨o, es⟩
    cases o with
    | none =>
      rw [parPass_cons_none (taggedNext_none hg i)]
      constructor
      · simp [ih2, hg]
      · simp [ih1, List.filterMap_cons, taggedNext_none hg i]
    | some t' =>
      rw [parPass_cons_some (taggedNext_some hg i)]
      constructor
      · simp [ih2, hg]
      · simp [ih1, List.filterMap_cons, taggedNext_some hg i]

/-- The ids of the surviving children form a sublist (order-preserving
subsequence) of the previous active ids: children are never duplicated or
re-added. -/
theorem parPass_ids_sublist (cs : List (ℕ × GenTrace ε)) :
    ((parPass taggedNext cs).1.map Prod.fst).Sublist (cs.map Prod.fst) := by
  induction cs with
  | nil => simp [parPass]
  | cons c cs ih =>
    obtain ⟨i, t⟩ := c
    rcases hg : genNext t with ⟨o, es⟩
    cases o with
    | none =>
      rw [parPass_cons_none (taggedNext_none hg i)]
      simp only [List.map_cons]
      exact ih.cons i
    | some t' =>
      rw [parPass_cons_some (taggedNext_some hg i)]
      simp only [List.map_cons]
      exact ih.cons₂ i

/-- The active ids shrink (as a sublist) with every advance. -/
theorem parIter_ids_sublist_succ (cs : List (ℕ × GenTrace ε)) (n : ℕ) :
    ((parIter taggedNext cs (n + 1)).map Prod.fst).Sublist
      ((parIter taggedNext cs n).map Prod.fst) := by
  show (((parAdvance taggedNext (parIter taggedNext cs n)).1.getD []).map
      Prod.fst).Sublist _
  rcases h : parIter taggedNext cs n with _ | ⟨c, rest⟩
  · simp [parAdvance]
  · simpa [parAdvance] using parPass_ids_sublist (c :: rest)

/-- The active ids at a later advance form a sublist of those at any
earlier advance. -/
theorem parIter_ids_sublist (cs : List (ℕ × GenTrace ε)) (n k : ℕ) :
    ((parIter taggedNext cs (n + k)).map Prod.fst).Sublist
      ((parIter taggedNext cs n).map Prod.fst) := by
  induction k with
  | zero => exact List.Sublist.refl _
  | succ k ih =>
    exact (parIter_ids_sublist_succ cs (n + k)).trans ih

/-- A child whose `next()` raises `StopIteration` is dropped from the
surviving set (given distinct child ids). -/
theorem parPass_removes_done (cs : List (ℕ × GenTrace ε)) (i : ℕ)
    (t : GenTrace ε) (hnd : (cs.map Prod.fst).Nodup) (hmem : (i, t) ∈ cs)
    (hdone : (genNext t).1 = none) :
    i ∉ (parPass taggedNext cs).1.map Prod.fst := by
  induction cs with
  | nil => simp at hmem
  | cons c cs ih =>
    simp only [List.map_cons, List.nodup_cons] at hnd
    rcases List.mem_cons.mp hmem with hc | hmem'
    · rcases hg : genNext t with ⟨o, es⟩
      have ho : o = none := by rw [hg] at hdone; exact hdone
      subst ho
      rw [← hc, parPass_cons_none (taggedNext_none hg i)]
      intro hin
      have hsub := parPass_ids_sublist cs
      rw [← hc] at hnd
      exact hnd.1 (hsub.mem hin)
    · have hi_ne : i ≠ c.1 := by
        intro h
        exact hnd.1 (h ▸ (List.mem_map.mpr ⟨(i, t), hmem', rfl⟩))
      have ihx := ih hnd.2 hmem'
      obtain ⟨j, u⟩ := c
      rcases hg : genNext u with ⟨o, es⟩
      cases o with
      | none =>
        rw [parPass_cons_none (taggedNext_none hg j)]
        exact ihx
      | some u' =>
        rw [parPass_cons_some (taggedNext_some hg j)]
        simp only [List.map_cons, List.mem_cons]
        rintro (h | h)
        · exact hi_ne h
        · exact ihx h

/-- A child absent from the active set contributes no tagged effects to an
advance. -/
theorem parAdvance_no_effects_of_absent (cs : List (ℕ × GenTrace ε))
    (i : ℕ) (habs : i ∉ cs.map Prod.fst) (b : List ε) :
    (i, b) ∉ (parAdvance taggedNext cs).2 := by
  cases cs with
  | nil => simp [parAdvance]
  | cons c rest =>
    show (i, b) ∉ (parPass taggedNext (c :: rest)).2
    rw [(parPass_spec (c :: rest)).1]
    intro hin
    rcases List.mem_map.mp hin with ⟨d, hd, he⟩
    exact habs (List.mem_map.mpr ⟨d, hd, congrArg Prod.fst he⟩)

/-- C3: `_parallel_gen` semantics.  A zero-child Parallel reports done on
its very first advance with no other side effects; an advance reports done
exactly when the active set is empty; every advance advances each
currently-active child exactly once, in order (the emitted tag sequence is
exactly the active ids), the surviving set being the in-order single-step
`filterMap`; the active ids only shrink over iterated advances (completion
is monotonic); a child reporting done is removed (given distinct ids) and
is absent from every later active set; and an absent child contributes no
effects to any advance. -/
theorem parallel_gen_spec {ε : Type} :
    (parAdvance (genNext (ε := ε)) ([] : List (GenTrace ε)) = (none, [])) ∧
    (∀ cs : List (ℕ × GenTrace ε),
      ((parAdvance taggedNext cs).1 = none ↔ cs = [])) ∧
    (∀ cs : List (ℕ × GenTrace ε),
      (parAdvance taggedNext cs).2 =
        cs.map (fun c => (c.1, (genNext c.2).2))) ∧
    (∀ cs : List (ℕ × GenTrace ε), cs ≠ [] →
      (parAdvance taggedNext cs).1 =
        some (cs.filterMap (fun c => (taggedNext c).1))) ∧
    (∀ (cs : List (ℕ × GenTrace ε)) (n k : ℕ),
      ((parIter taggedNext cs (n + k)).map Prod.fst).Sublist
        ((parIter taggedNext cs n).map Prod.fst)) ∧
    (∀ (cs : List (ℕ × GenTrace ε)) (i : ℕ) (t : GenTrace ε),
      (cs.map Prod.fst).Nodup → (i, t) ∈ cs → (genNext t).1 = none →
      ∀ k, i ∉ (parIter taggedNext cs (1 + k)).map Prod.fst) ∧
    (∀ (cs : List (ℕ × GenTrace ε)) (i : ℕ),
      i ∉ cs.map Prod.fst →
      ∀ b : List ε, (i, b) ∉ (parAdvance taggedNext cs).2) := by
  refine ⟨rfl, ?_, ?_, ?_, ?_, ?_, ?_⟩
  · intro cs
    cases cs with
    | nil => simp [parAdvance]
    | cons c rest => simp [parAdvance]
  · intro cs
    cases cs with
    | nil => simp [parAdvance]
    | cons c rest => exact (parPass_spec (c :: rest)).1
  · intro cs hne
    cases cs with
    | nil => exact absurd rfl hne
    | cons c rest =>
      show some (parPass taggedNext (c :: rest)).1 = _
      rw [(parPass_spec (c :: rest)).2]
  · exact fun cs n k => parIter_ids_sublist cs n k
  · intro cs i t hnd hmem hdone k
    have h1 : i ∉ (parIter taggedNext cs 1).map Prod.fst := by
      cases cs with
      | nil => simp at hmem
      | cons c rest =>
        show i ∉ (((parAdvance taggedNext (c :: rest)).1).getD []).map
          Prod.fst
        have : (parAdvance taggedNext (c :: rest)).1 =
            some (parPass taggedNext (c :: rest)).1 := rfl
        rw [this, Option.getD_some]
        exact parPass_removes_done (c :: rest) i t hnd hmem hdone
    intro hin
    exact h1 ((parIter_ids_sublist cs 1 k).mem hin)
  · exact fun cs i habs b => parAdvance_no_effects_of_absent cs i habs b

/-- Witness for C3 at concrete children: child 0 finishes on the first
advance (emitting its final batch `[7]`) and is gone from the active set
afterwards; child 1 is still active. -/
theorem parallel_gen_spec_witness :
    0 ∉ (parIter taggedNext
        [(0, (⟨[], [7]⟩ : GenTrace ℕ)), (1, ⟨[[5]], []⟩)] 1).map Prod.fst :=
  parallel_gen_spec.2.2.2.2.2.1
    [(0, ⟨[], [7]⟩), (1, ⟨[[5]], []⟩)] 0 ⟨[], [7]⟩
    (by decide) (by decide) (by decide) 0

/-! ### `_sequence_gen` (claim C4) -/

/-- One `next()` of `_sequence_gen(animations)` (`yield from` semantics):
the head child is advanced; if it raises `StopIteration`, its final effects
are emitted and — *within the same call* — the next child is advanced; the
sequence raises `StopIteration` when no child remains to yield. -/
def seqAdvance : List (GenTrace ε) → Option (List (GenTrace ε)) × List ε
  | [] => (none, [])
  | tr :: rest =>
    match genNext tr with
    | (some tr', es) => (some (tr' :: rest), es)
    | (none, es) =>
      let r := seqAdvance rest
      (r.1, es ++ r.2)

/-- Drive a generator with `fuel` `next()` calls, recording the effect
batch of every call, the last being the `StopIteration`-raising one;
`none` if the generator does not finish within `fuel` calls. -/
def runBatches (step : σ → Option σ × List ε) : ℕ → σ →
    Option (List (List ε))
  | 0, _ => none
  | n + 1, s =>
    match step s with
    | (none, es) => some [es]
    | (some s', es) => (runBatches step n s').map (es :: ·)

/-- Merge a finishing child's final effects into the first call of the
following run (they happen in the same `next()` call under `yield from`). -/
def mergeFinal (fin : List ε) : List (List ε) → List (List ε)
  | [] => [fin]
  | b :: bs => (fin ++ b) :: bs

/-- The per-call effect batches of a full `_sequence_gen` run, computed
directly from the children's traces: each child contributes its yield
batches as separate calls, and its final batch is merged into the next
child's first call (or stands alone in the sequence's final call). -/
def seqRun : List (GenTrace ε) → List (List ε)
  | [] => [[]]
  | tr :: rest => tr.yields ++ mergeFinal tr.final (seqRun rest)

/-- `seqRun` always describes at least one call (the `StopIteration` one). -/
theorem seqRun_ne_nil (cs : List (GenTrace ε)) : seqRun cs ≠ [] := by
  cases cs with
  | nil => simp [seqRun]
  | cons tr rest =>
    unfold seqRun mergeFinal
    rcases seqRun rest with _ | ⟨b, bs⟩ <;> simp

/-- `mergeFinal` keeps the number of calls of a nonempty run. -/
theorem mergeFinal_length (fin : List ε) (bs : List (List ε))
    (h : bs ≠ []) : (mergeFinal fin bs).length = bs.length := by
  cases bs with
  | nil => exact absurd rfl h
  | cons b bs' => rfl

/-- Stepping `_sequence_gen` with a head whose trace still yields. -/
theorem seqAdvance_cons_yield (e : List ε) (ys : List (List ε))
    (fin : List ε) (rest : List (GenTrace ε)) :
    seqAdvance (⟨e :: ys, fin⟩ :: rest) = (some (⟨ys, fin⟩ :: rest), e) :=
  rfl

/-- Stepping `_sequence_gen` with an exhausted head: the head's final
effects precede the effects of advancing the remaining children in the
same call. -/
theorem seqAdvance_cons_done (fin : List ε) (rest : List (GenTrace ε)) :
    seqAdvance (⟨[], fin⟩ :: rest) =
      ((seqAdvance rest).1, fin ++ (seqAdvance rest).2) :=
  rfl

/-- Prepending one child to a sequence run: the child's yield batches come
first, one call each, and its final batch merges into the first call of
the rest's run. -/
theorem runBatches_seq_cons (tr : GenTrace ε) (rest : List (GenTrace ε))
    (n : ℕ) (bs : List (List ε))
    (h : runBatches seqAdvance n rest = some bs) :
    runBatches seqAdvance (tr.yields.length + n) (tr :: rest) =
      some (tr.yields ++ mergeFinal tr.final bs) := by
  obtain ⟨ys, fin⟩ := tr
  show runBatches seqAdvance (ys.length + n) (⟨ys, fin⟩ :: rest) =
    some (ys ++ mergeFinal fin bs)
  induction ys with
  | nil =>
    cases n with
    | zero => simp [runBatches] at h
    | succ m =>
      simp only [runBatches] at h
      rcases hr : seqAdvance rest with ⟨o, es⟩
      rw [hr] at h
      cases o with
      | none =>
        simp only at h
        have hbs : bs = [es] := (Option.some.inj h).symm
        subst hbs
        show runBatches seqAdvance (0 + (m + 1)) (⟨[], fin⟩ :: rest) = _
        rw [Nat.zero_add]
        simp only [runBatches, seqAdvance_cons_done, hr]
        rfl
      | some s' =>
        simp only at h
        rcases hm : runBatches seqAdvance m s' with _ | bs'
        · rw [hm] at h
          exact absurd h (by simp)
        · rw [hm] at h
          simp only [Option.map_some'] at h
          have hbs : bs = es :: bs' := (Option.some.inj h).symm
          subst hbs
          show runBatches seqAdvance (0 + (m + 1)) (⟨[], fin⟩ :: rest) = _
          rw [Nat.zero_add]
          simp only [runBatches, seqAdvance_cons_done, hr, hm]
          rfl
  | cons e ys ih =>
    rw [List.length_cons, Nat.add_right_comm]
    simp only [runBatches, seqAdvance_cons_yield]
    rw [ih]
    rfl

/-- The batches of a full `_sequence_gen` run are exactly `seqRun`: run
with exactly `(seqRun cs).length` calls, the sequence finishes and its
per-call batches are `seqRun cs`. -/
theorem runBatches_seqRun (cs : List (GenTrace ε)) :
    runBatches seqAdvance (seqRun cs).length cs = some (seqRun cs) := by
  induction cs with
  | nil => rfl
  | cons tr rest ih =>
    have hlen : (seqRun (tr :: rest)).length =
        tr.yields.length + (seqRun rest).length := by
      show (tr.yields ++ mergeFinal tr.final (seqRun rest)).length = _
      rw [List.length_append,
        mergeFinal_length tr.final (seqRun rest) (seqRun_ne_nil rest)]
    rw [hlen, runBatches_seq_cons tr rest _ _ ih]
    rfl

/-- Flattening a merged run: the final batch's effects come first. -/
theorem mergeFinal_flatten (fin : List ε) (bs : List (List ε)) :
    (mergeFinal fin bs).flatten = fin ++ bs.flatten := by
  cases bs with
  | nil => simp [mergeFinal]
  | cons b bs' => simp [mergeFinal]

/-- C4 (amended): for every pair of tasks `A`, `B` (as observable generator
traces): `_sequence_gen([A, B])` runs to completion in exactly
`(seqRun [A, B]).length` advance calls with per-call batches `seqRun [A,B]`;
its first `yields(A)` calls emit exactly `A`'s yield batches (so `B` is
never advanced before `A` reports done) and all of `A`'s effects precede
all of `B`'s; and the total number of advance calls consumed is
`advances(A) + advances(B) - 1` — equivalently `yields(A) + yields(B) + 1`
— one fewer than `advances(A) + advances(B)`, because the call that
discovers `A`'s completion advances `B` in the same call (`yield from`). -/
theorem sequence_gen_spec {ε : Type} (A B : GenTrace ε) :
    runBatches seqAdvance (seqRun [A, B]).length [A, B] =
      some (seqRun [A, B]) ∧
    (seqRun [A, B]).take A.yields.length = A.yields ∧
    (seqRun [A, B]).flatten =
      (A.yields.flatten ++ A.final) ++ (B.yields.flatten ++ B.final) ∧
    (seqRun [A, B]).length + 1 = callsToDone A + callsToDone B ∧
    (seqRun [A, B]).length = A.yields.length + B.yields.length + 1 := by
  have hAB : seqRun [A, B] =
      A.yields ++ mergeFinal A.final (seqRun [B]) := rfl
  have hB : seqRun [B] = B.yields ++ mergeFinal B.final [[]] := rfl
  have hlen : (seqRun [A, B]).length =
      A.yields.length + B.yields.length + 1 := by
    rw [hAB, List.length_append,
      mergeFinal_length A.final (seqRun [B]) (seqRun_ne_nil [B]), hB,
      List.length_append,
      mergeFinal_length B.final [[]] (by simp)]
    simp only [List.length_singleton]
    omega
  refine ⟨runBatches_seqRun [A, B], ?_, ?_, ?_, hlen⟩
  · rw [hAB]
    exact List.take_left A.yields _
  · rw [hAB, List.flatten_append, mergeFinal_flatten, hB,
      List.flatten_append, mergeFinal_flatten]
    simp [List.append_assoc]
  · rw [hlen]
    unfold callsToDone
    omega

/-- Counterexample to C4 as stated: two children that both yield zero times
(e.g. tweens whose first advance already satisfies `elapsed ≥ duration`).
Run alone, each consumes one advance call (`advances(A) = advances(B) = 1`),
but `_sequence_gen([A, B])` runs to completion in a single advance call —
`yield from` lets the call that finishes `A` also finish `B` — not
`advances(A) + advances(B) = 2`. -/
theorem sequence_advances_counterexample :
    runBatches seqAdvance 1 [(⟨[], []⟩ : GenTrace ℕ), ⟨[], []⟩] =
      some [[]] ∧
    callsToDone (⟨[], []⟩ : GenTrace ℕ) +
      callsToDone (⟨[], []⟩ : GenTrace ℕ) = 2 ∧
    (seqRun [(⟨[], []⟩ : GenTrace ℕ), ⟨[], []⟩]).length ≠
      callsToDone (⟨[], []⟩ : GenTrace ℕ) +
        callsToDone (⟨[], []⟩ : GenTrace ℕ) := by
  exact ⟨rfl, rfl, by decide⟩

/-! ## Easing library (`easing.py`, claims C7, C8)

The easing functions are real-valued (`sin`, `cos`, `sqrt`, real powers),
so they are modelled over `ℝ`; Python float literals are exact decimal
literals here. -/

noncomputable section Easing

open Real

/-- `linear(t) = t`. -/
def linear (t : ℝ) : ℝ := t

/-- `ease_in_quad`. -/
def ease_in_quad (t : ℝ) : ℝ := t * t

/-- `ease_out_quad`. -/
def ease_out_quad (t : ℝ) : ℝ := 1 - (1 - t) * (1 - t)

/-- `ease_in_out_quad`. -/
def ease_in_out_quad (t : ℝ) : ℝ :=
  if t < 0.5 then 2 * t * t else 1 - (-2 * t + 2) ^ 2 / 2

/-- `ease_in_cubic`. -/
def ease_in_cubic (t : ℝ) : ℝ := t * t * t

/-- `ease_out_cubic`. -/
def ease_out_cubic (t : ℝ) : ℝ := 1 - (1 - t) ^ 3

/-- `ease_in_out_cubic`. -/
def ease_in_out_cubic (t : ℝ) : ℝ :=
  if t < 0.5 then 4 * t * t * t else 1 - (-2 * t + 2) ^ 3 / 2

/-- `ease_in_quart`. -/
def ease_in_quart (t : ℝ) : ℝ := t * t * t * t

/-- `ease_out_quart`. -/
def ease_out_quart (t : ℝ) : ℝ := 1 - (1 - t) ^ 4

/-- `ease_in_out_quart`. -/
def ease_in_out_quart (t : ℝ) : ℝ :=
  if t < 0.5 then 8 * t * t * t * t else 1 - (-2 * t + 2) ^ 4 / 2

/-- `ease_in_quint`. -/
def ease_in_quint (t : ℝ) : ℝ := t * t * t * t * t

/-- `ease_out_quint`. -/
def ease_out_quint (t : ℝ) : ℝ := 1 - (1 - t) ^ 5

/-- `ease_in_out_quint`. -/
def ease_in_out_quint (t : ℝ) : ℝ :=
  if t < 0.5 then 16 * t * t * t * t * t else 1 - (-2 * t + 2) ^ 5 / 2

/-- `ease_in_sine`. -/
def ease_in_sine (t : ℝ) : ℝ := 1 - Real.cos (t * π / 2)

/-- `ease_out_sine`. -/
def ease_out_sine (t : ℝ) : ℝ := Real.sin (t * π / 2)

/-- `ease_in_out_sine`. -/
def ease_in_out_sine (t : ℝ) : ℝ := -(Real.cos (π * t) - 1) / 2

/-- `ease_in_expo`; special-cased so `f(0) = 0` exactly. -/
def ease_in_expo (t : ℝ) : ℝ :=
  if t = 0 then 0 else (2 : ℝ) ^ (10 * t - 10)

/-- `ease_out_expo`; special-cased so `f(1) = 1` exactly. -/
def ease_out_expo (t : ℝ) : ℝ :=
  if t = 1 then 1 else 1 - (2 : ℝ) ^ (-10 * t)

/-- `ease_in_out_expo`; special-cased at both boundaries. -/
def ease_in_out_expo (t : ℝ) : ℝ :=
  if t = 0 then 0
  else if t = 1 then 1
  else if t < 0.5 then (2 : ℝ) ^ (20 * t - 10) / 2
  else (2 - (2 : ℝ) ^ (-20 * t + 10)) / 2

/-- `ease_in_circ`. -/
def ease_in_circ (t : ℝ) : ℝ := 1 - Real.sqrt (1 - t * t)

/-- `ease_out_circ`. -/
def ease_out_circ (t : ℝ) : ℝ := Real.sqrt (1 - (t - 1) ^ 2)

/-- `ease_in_out_circ`. -/
def ease_in_out_circ (t : ℝ) : ℝ :=
  if t < 0.5 then (1 - Real.sqrt (1 - (2 * t) ^ 2)) / 2
  else (Real.sqrt (1 - (-2 * t + 2) ^ 2) + 1) / 2

/-- `ease_in_back` (overshoots at the start); `c1 = 1.70158`,
`c3 = c1 + 1`. -/
def ease_in_back (t : ℝ) : ℝ :=
  let c1 : ℝ := 1.70158
  let c3 : ℝ := c1 + 1
  c3 * t * t * t - c1 * t * t

/-- `ease_out_back` (overshoots at the end). -/
def ease_out_back (t : ℝ) : ℝ :=
  let c1 : ℝ := 1.70158
  let c3 : ℝ := c1 + 1
  1 + c3 * (t - 1) ^ 3 + c1 * (t - 1) ^ 2

/-- `ease_in_out_back`; `c2 = c1 * 1.525`. -/
def ease_in_out_back (t : ℝ) : ℝ :=
  let c1 : ℝ := 1.70158
  let c2 : ℝ := c1 * 1.525
  if t < 0.5 then ((2 * t) ^ 2 * ((c2 + 1) * 2 * t - c2)) / 2
  else ((2 * t - 2) ^ 2 * ((c2 + 1) * (t * 2 - 2) + c2) + 2) / 2

/-- `ease_in_elastic`; special-cased at `t = 0, 1`; `c4 = 2π/3`. -/
def ease_in_elastic (t : ℝ) : ℝ :=
  if t = 0 then 0
  else if t = 1 then 1
  else
    let c4 : ℝ := 2 * π / 3;
    -((2 : ℝ) ^ (10 * t - 10)) * Real.sin ((t * 10 - 10.75) * c4)

/-- `ease_out_elastic`; special-cased at `t = 0, 1`. -/
def ease_out_elastic (t : ℝ) : ℝ :=
  if t = 0 then 0
  else if t = 1 then 1
  else
    let c4 : ℝ := 2 * π / 3;
    (2 : ℝ) ^ (-10 * t) * Real.sin ((t * 10 - 0.75) * c4) + 1

/-- `ease_in_out_elastic`; special-cased at `t = 0, 1`; `c5 = 2π/4.5`. -/
def ease_in_out_elastic (t : ℝ) : ℝ :=
  if t = 0 then 0
  else if t = 1 then 1
  else
    let c5 : ℝ := 2 * π / 4.5;
    if t < 0.5 then
      -((2 : ℝ) ^ (20 * t - 10) * Real.sin ((20 * t - 11.125) * c5)) / 2
    else ((2 : ℝ) ^ (-20 * t + 10) * Real.sin ((20 * t - 11.125) * c5)) / 2 + 1

/-- `ease_out_bounce`: a 4-piece quadratic with `n1 = 7.5625`,
`d1 = 2.75` (Python's in-place `t -=` offsets written explicitly). -/
def ease_out_bounce (t : ℝ) : ℝ :=
  let n1 : ℝ := 7.5625
  let d1 : ℝ := 2.75
  if t < 1 / d1 then n1 * t * t
  else if t < 2 / d1 then n1 * (t - 1.5 / d1) * (t - 1.5 / d1) + 0.75
  else if t < 2.5 / d1 then n1 * (t - 2.25 / d1) * (t - 2.25 / d1) + 0.9375
  else n1 * (t - 2.625 / d1) * (t - 2.625 / d1) + 0.984375

/-- `ease_in_bounce(t) = 1 - ease_out_bounce(1 - t)`. -/
def ease_in_bounce (t : ℝ) : ℝ := 1 - ease_out_bounce (1 - t)

/-- `ease_in_out_bounce`. -/
def ease_in_out_bounce (t : ℝ) : ℝ :=
  if t < 0.5 then (1 - ease_out_bounce (1 - 2 * t)) / 2
  else (1 + ease_out_bounce (2 * t - 1)) / 2

/-- `ease_in = ease_in_quad`. -/
def ease_in : ℝ → ℝ := ease_in_quad

/-- `ease_out = ease_out_quad`. -/
def ease_out : ℝ → ℝ := ease_out_quad

/-- `ease_in_out = ease_in_out_quad`. -/
def ease_in_out : ℝ → ℝ := ease_in_out_quad

/-- The `EASING_FUNCTIONS` registry, in source (insertion) order. -/
def EASING_FUNCTIONS : List (String × (ℝ → ℝ)) := [
  ("linear", linear),
  ("ease_in", ease_in),
  ("ease_out", ease_out),
  ("ease_in_out", ease_in_out),
  ("ease_in_quad", ease_in_quad),
  ("ease_out_quad", ease_out_quad),
  ("ease_in_out_quad", ease_in_out_quad),
  ("ease_in_cubic", ease_in_cubic),
  ("ease_out_cubic", ease_out_cubic),
  ("ease_in_out_cubic", ease_in_out_cubic),
  ("ease_in_quart", ease_in_quart),
  ("ease_out_quart", ease_out_quart),
  ("ease_in_out_quart", ease_in_out_quart),
  ("ease_in_quint", ease_in_quint),
  ("ease_out_quint", ease_out_quint),
  ("ease_in_out_quint", ease_in_out_quint),
  ("ease_in_sine", ease_in_sine),
  ("ease_out_sine", ease_out_sine),
  ("ease_in_out_sine", ease_in_out_sine),
  ("ease_in_expo", ease_in_expo),
  ("ease_out_expo", ease_out_expo),
  ("ease_in_out_expo", ease_in_out_expo),
  ("ease_in_circ", ease_in_circ),
  ("ease_out_circ", ease_out_circ),
  ("ease_in_out_circ", ease_in_out_circ),
  ("ease_in_back", ease_in_back),
  ("ease_out_back", ease_out_back),
  ("ease_in_out_back", ease_in_out_back),
  ("ease_in_elastic", ease_in_elastic),
  ("ease_out_elastic", ease_out_elastic),
  ("ease_in_out_elastic", ease_in_out_elastic),
  ("ease_in_bounce", ease_in_bounce),
  ("ease_out_bounce", ease_out_bounce),
  ("ease_in_out_bounce", ease_in_out_bounce)]

/-- The registered easing functions, in order. -/
def easingFns : List (ℝ → ℝ) := EASING_FUNCTIONS.map Prod.snd

/-- The registered easing names, in order. -/
def easingNames : List String := EASING_FUNCTIONS.map Prod.fst

/-- Argument of `get_easing`: already a callable, or a name. -/
inductive EasingArg where
  | func (f : ℝ → ℝ)
  | name (s : String)

/-- The `ValueError` raised for an unknown easing name, structured as its
message is built: `f"Unknown easing function: {name}. Available:
{', '.join(EASING_FUNCTIONS.keys())}"`. -/
structure EasingError where
  unknownName : String
  available : List String
  deriving DecidableEq, Repr

/-- `name.lower().replace("-", "_").replace(" ", "_")` (single-character
replacements, applied per character after lowercasing). -/
def normalizeEasingName (s : String) : String :=
  String.mk (s.data.map
    (fun c =>
      let l := c.toLower
      if l = '-' ∨ l = ' ' then '_' else l))

/-- `get_easing(name_or_func)`: pass-through for a callable, else
case/separator-insensitive lookup; an unknown name yields the error
enumerating all valid names. -/
def get_easing : EasingArg → Except EasingError (ℝ → ℝ)
  | .func f => .ok f
  | .name s =>
    let n := normalizeEasingName s
    match EASING_FUNCTIONS.lookup n with
    | some f => .ok f
    | none => .error ⟨s, easingNames⟩

/-! ### Boundary values `f(0) = 0`, `f(1) = 1` (claim C8) -/

theorem linear_boundary : linear 0 = 0 ∧ linear 1 = 1 :=
  ⟨rfl, rfl⟩

theorem ease_in_quad_boundary : ease_in_quad 0 = 0 ∧ ease_in_quad 1 = 1 := by
  unfold ease_in_quad; norm_num

theorem ease_out_quad_boundary :
    ease_out_quad 0 = 0 ∧ ease_out_quad 1 = 1 := by
  unfold ease_out_quad; norm_num

theorem ease_in_out_quad_boundary :
    ease_in_out_quad 0 = 0 ∧ ease_in_out_quad 1 = 1 := by
  unfold ease_in_out_quad; norm_num

theorem ease_in_cubic_boundary :
    ease_in_cubic 0 = 0 ∧ ease_in_cubic 1 = 1 := by
  unfold ease_in_cubic; norm_num

theorem ease_out_cubic_boundary :
    ease_out_cubic 0 = 0 ∧ ease_out_cubic 1 = 1 := by
  unfold ease_out_cubic; norm_num

theorem ease_in_out_cubic_boundary :
    ease_in_out_cubic 0 = 0 ∧ ease_in_out_cubic 1 = 1 := by
  unfold ease_in_out_cubic; norm_num

theorem ease_in_quart_boundary :
    ease_in_quart 0 = 0 ∧ ease_in_quart 1 = 1 := by
  unfold ease_in_quart; norm_num

theorem ease_out_quart_boundary :
    ease_out_quart 0 = 0 ∧ ease_out_quart 1 = 1 := by
  unfold ease_out_quart; norm_num

theorem ease_in_out_quart_boundary :
    ease_in_out_quart 0 = 0 ∧ ease_in_out_quart 1 = 1 := by
  unfold ease_in_out_quart; norm_num

theorem ease_in_quint_boundary :
    ease_in_quint 0 = 0 ∧ ease_in_quint 1 = 1 := by
  unfold ease_in_quint; norm_num

theorem ease_out_quint_boundary :
    ease_out_quint 0 = 0 ∧ ease_out_quint 1 = 1 := by
  unfold ease_out_quint; norm_num

theorem ease_in_out_quint_boundary :
    ease_in_out_quint 0 = 0 ∧ ease_in_out_quint 1 = 1 := by
  unfold ease_in_out_quint; norm_num

theorem ease_in_sine_boundary :
    ease_in_sine 0 = 0 ∧ ease_in_sine 1 = 1 := by
  unfold ease_in_sine
  constructor
  · norm_num
  · norm_num [Real.cos_pi_div_two]

theorem ease_out_sine_boundary :
    ease_out_sine 0 = 0 ∧ ease_out_sine 1 = 1 := by
  unfold ease_out_sine
  constructor
  · norm_num
  · norm_num [Real.sin_pi_div_two]

theorem ease_in_out_sine_boundary :
    ease_in_out_sine 0 = 0 ∧ ease_in_out_sine 1 = 1 := by
  unfold ease_in_out_sine
  constructor
  · norm_num
  · norm_num [Real.cos_pi]

theorem ease_in_expo_boundary :
    ease_in_expo 0 = 0 ∧ ease_in_expo 1 = 1 := by
  unfold ease_in_expo
  constructor
  · norm_num
  · rw [if_neg one_ne_zero]
    norm_num

theorem ease_out_expo_boundary :
    ease_out_expo 0 = 0 ∧ ease_out_expo 1 = 1 := by
  unfold ease_out_expo
  constructor
  · rw [if_neg (by norm_num : (0 : ℝ) ≠ 1)]
    norm_num
  · norm_num

theorem ease_in_out_expo_boundary :
    ease_in_out_expo 0 = 0 ∧ ease_in_out_expo 1 = 1 := by
  unfold ease_in_out_expo
  constructor
  · norm_num
  · rw [if_neg one_ne_zero, if_pos rfl]

theorem ease_in_circ_boundary :
    ease_in_circ 0 = 0 ∧ ease_in_circ 1 = 1 := by
  unfold ease_in_circ
  norm_num

theorem ease_out_circ_boundary :
    ease_out_circ 0 = 0 ∧ ease_out_circ 1 = 1 := by
  unfold ease_out_circ
  norm_num

theorem ease_in_out_circ_boundary :
    ease_in_out_circ 0 = 0 ∧ ease_in_out_circ 1 = 1 := by
  unfold ease_in_out_circ
  norm_num

theorem ease_in_back_boundary :
    ease_in_back 0 = 0 ∧ ease_in_back 1 = 1 := by
  unfold ease_in_back
  norm_num

theorem ease_out_back_boundary :
    ease_out_back 0 = 0 ∧ ease_out_back 1 = 1 := by
  unfold ease_out_back
  norm_num

theorem ease_in_out_back_boundary :
    ease_in_out_back 0 = 0 ∧ ease_in_out_back 1 = 1 := by
  unfold ease_in_out_back
  norm_num

theorem ease_in_elastic_boundary :
    ease_in_elastic 0 = 0 ∧ ease_in_elastic 1 = 1 := by
  unfold ease_in_elastic
  norm_num

theorem ease_out_elastic_boundary :
    ease_out_elastic 0 = 0 ∧ ease_out_elastic 1 = 1 := by
  unfold ease_out_elastic
  norm_num

theorem ease_in_out_elastic_boundary :
    ease_in_out_elastic 0 = 0 ∧ ease_in_out_elastic 1 = 1 := by
  unfold ease_in_out_elastic
  norm_num

theorem ease_out_bounce_boundary :
    ease_out_bounce 0 = 0 ∧ ease_out_bounce 1 = 1 := by
  unfold ease_out_bounce
  norm_num

theorem ease_in_bounce_boundary :
    ease_in_bounce 0 = 0 ∧ ease_in_bounce 1 = 1 := by
  unfold ease_in_bounce
  norm_num [ease_out_bounce_boundary.1, ease_out_bounce_boundary.2]

theorem ease_in_out_bounce_boundary :
    ease_in_out_bounce 0 = 0 ∧ ease_in_out_bounce 1 = 1 := by
  unfold ease_in_out_bounce
  norm_num [ease_out_bounce_boundary.1, ease_out_bounce_boundary.2]

theorem ease_in_boundary : ease_in 0 = 0 ∧ ease_in 1 = 1 :=
  ease_in_quad_boundary

theorem ease_out_boundary : ease_out 0 = 0 ∧ ease_out 1 = 1 :=
  ease_out_quad_boundary

theorem ease_in_out_boundary : ease_in_out 0 = 0 ∧ ease_in_out 1 = 1 :=
  ease_in_out_quad_boundary

/-- C8: every easing function registered in `EASING_FUNCTIONS` satisfies
`f(0) = 0` and `f(1) = 1` (exactly, over the reals; the exponential and
elastic variants are exact at the boundaries by explicit
special-casing). -/
theorem easing_boundaries (i : Fin easingFns.length) :
    (easingFns.get i) 0 = 0 ∧ (easingFns.get i) 1 = 1 := by
  fin_cases i
  exacts [linear_boundary, ease_in_boundary, ease_out_boundary,
    ease_in_out_boundary, ease_in_quad_boundary, ease_out_quad_boundary,
    ease_in_out_quad_boundary, ease_in_cubic_boundary,
    ease_out_cubic_boundary, ease_in_out_cubic_boundary,
    ease_in_quart_boundary, ease_out_quart_boundary,
    ease_in_out_quart_boundary, ease_in_quint_boundary,
    ease_out_quint_boundary, ease_in_out_quint_boundary,
    ease_in_sine_boundary, ease_out_sine_boundary,
    ease_in_out_sine_boundary, ease_in_expo_boundary,
    ease_out_expo_boundary, ease_in_out_expo_boundary,
    ease_in_circ_boundary, ease_out_circ_boundary,
    ease_in_out_circ_boundary, ease_in_back_boundary,
    ease_out_back_boundary, ease_in_out_back_boundary,
    ease_in_elastic_boundary, ease_out_elastic_boundary,
    ease_in_out_elastic_boundary, ease_in_bounce_boundary,
    ease_out_bounce_boundary, ease_in_out_bounce_boundary]

/-! ### `get_easing` (claim C7) -/

/-- Association-list lookup misses exactly the absent keys. -/
theorem lookup_none_of_not_mem {β : Type} (key : String)
    (l : List (String × β)) (h : key ∉ l.map Prod.fst) :
    l.lookup key = none := by
  induction l with
  | nil => rfl
  | cons p tl ih =>
    obtain ⟨k, v⟩ := p
    simp only [List.map_cons, List.mem_cons] at h
    push_neg at h
    have hne : (key == k) = false := beq_eq_false_iff_ne.mpr h.1
    simp [List.lookup, hne, ih h.2]

/-- C7: `get_easing` is a pass-through for a callable; name lookup is
case- and separator-insensitive, so `"Ease-Out"` resolves to the identical
function as `"ease_out"` (namely `ease_out = ease_out_quad`); and every
unknown name fails with the error carrying the offending name and the full
list of valid easing names — never a silent default. -/
theorem get_easing_spec :
    (∀ f : ℝ → ℝ, get_easing (.func f) = .ok f) ∧
    (get_easing (.name "Ease-Out") = get_easing (.name "ease_out") ∧
      get_easing (.name "ease_out") = .ok ease_out ∧
      ease_out = ease_out_quad) ∧
    (∀ s : String, normalizeEasingName s ∉ easingNames →
      get_easing (.name s) = .error ⟨s, easingNames⟩ ∧
      easingNames = EASING_FUNCTIONS.map Prod.fst) := by
  refine ⟨fun f => rfl, ⟨rfl, rfl, rfl⟩, ?_⟩
  intro s hs
  refine ⟨?_, rfl⟩
  show (match EASING_FUNCTIONS.lookup (normalizeEasingName s) with
    | some f => (Except.ok f : Except EasingError (ℝ → ℝ))
    | none => Except.error (EasingError.mk s easingNames)) =
    Except.error (EasingError.mk s easingNames)
  rw [lookup_none_of_not_mem (normalizeEasingName s) EASING_FUNCTIONS hs]

/-- Witness for C7 at the concrete unknown name `"spiral"`. -/
theorem get_easing_spec_witness :
    get_easing (.name "spiral") = .error ⟨"spiral", easingNames⟩ :=
  (get_easing_spec.2.2 "spiral" (by decide)).1

end Easing

/-! ## Color parsing and blocking entrypoints (`color.py`, `animate.py`, claim C5) -/

/-- `ColorLike = Union[str, (int,int,int), (int,int,int,int), Color]`. -/
inductive ColorLike where
  | color (c : Color)
  | str (s : String)
  | rgb (r g b : ℤ)
  | rgba (r g b a : ℤ)

/-- The CSS color-name table of `color.py`, in source order. -/
def CSS_COLORS : List (String × (ℤ × ℤ × ℤ)) := [
  ("aliceblue", (240, 248, 255)),
  ("antiquewhite", (250, 235, 215)),
  ("aqua", (0, 255, 255)),
  ("aquamarine", (127, 255, 212)),
  ("azure", (240, 255, 255)),
  ("beige", (245, 245, 220)),
  ("bisque", (255, 228, 196)),
  ("black", (0, 0, 0)),
  ("blanchedalmond", (255, 235, 205)),
  ("blue", (0, 0, 255)),
  ("blueviolet", (138, 43, 226)),
  ("brown", (165, 42, 42)),
  ("burlywood", (222, 184, 135)),
  ("cadetblue", (95, 158, 160)),
  ("chartreuse", (127, 255, 0)),
  ("chocolate", (210, 105, 30)),
  ("coral", (255, 127, 80)),
  ("cornflowerblue", (100, 149, 237)),
  ("cornsilk", (255, 248, 220)),
  ("crimson", (220, 20, 60)),
  ("cyan", (0, 255, 255)),
  ("darkblue", (0, 0, 139)),
  ("darkcyan", (0, 139, 139)),
  ("darkgoldenrod", (184, 134, 11)),
  ("darkgray", (169, 169, 169)),
  ("darkgreen", (0, 100, 0)),
  ("darkgrey", (169, 169, 169)),
  ("darkkhaki", (189, 183, 107)),
  ("darkmagenta", (139, 0, 139)),
  ("darkolivegreen", (85, 107, 47)),
  ("darkorange", (255, 140, 0)),
  ("darkorchid", (153, 50, 204)),
  ("darkred", (139, 0, 0)),
  ("darksalmon", (233, 150, 122)),
  ("darkseagreen", (143, 188, 143)),
  ("darkslateblue", (72, 61, 139)),
  ("darkslategray", (47, 79, 79)),
  ("darkslategrey", (47, 79, 79)),
  ("darkturquoise", (0, 206, 209)),
  ("darkviolet", (148, 0, 211)),
  ("deeppink", (255, 20, 147)),
  ("deepskyblue", (0, 191, 255)),
  ("dimgray", (105, 105, 105)),
  ("dimgrey", (105, 105, 105)),
  ("dodgerblue", (30, 144, 255)),
  ("firebrick", (178, 34, 34)),
  ("floralwhite", (255, 250, 240)),
  ("forestgreen", (34, 139, 34)),
  ("fuchsia", (255, 0, 255)),
  ("gainsboro", (220, 220, 220)),
  ("ghostwhite", (248, 248, 255)),
  ("gold", (255, 215, 0)),
  ("goldenrod", (218, 165, 32)),
  ("gray", (128, 128, 128)),
  ("green", (0, 128, 0)),
  ("greenyellow", (173, 255, 47)),
  ("grey", (128, 128, 128)),
  ("honeydew", (240, 255, 240)),
  ("hotpink", (255, 105, 180)),
  ("indianred", (205, 92, 92)),
  ("indigo", (75, 0, 130)),
  ("ivory", (255, 255, 240)),
  ("khaki", (240, 230, 140)),
  ("lavender", (230, 230, 250)),
  ("lavenderblush", (255, 240, 245)),
  ("lawngreen", (124, 252, 0)),
  ("lemonchiffon", (255, 250, 205)),
  ("lightblue", (173, 216, 230)),
  ("lightcoral", (240, 128, 128)),
  ("lightcyan", (224, 255, 255)),
  ("lightgoldenrodyellow", (250, 250, 210)),
  ("lightgray", (211, 211, 211)),
  ("lightgreen", (144, 238, 144)),
  ("lightgrey", (211, 211, 211)),
  ("lightpink", (255, 182, 193)),
  ("lightsalmon", (255, 160, 122)),
  ("lightseagreen", (32, 178, 170)),
  ("lightskyblue", (135, 206, 250)),
  ("lightslategray", (119, 136, 153)),
  ("lightslategrey", (119, 136, 153)),
  ("lightsteelblue", (176, 196, 222)),
  ("lightyellow", (255, 255, 224)),
  ("lime", (0, 255, 0)),
  ("limegreen", (50, 205, 50)),
  ("linen", (250, 240, 230)),
  ("magenta", (255, 0, 255)),
  ("maroon", (128, 0, 0)),
  ("mediumaquamarine", (102, 205, 170)),
  ("mediumblue", (0, 0, 205)),
  ("mediumorchid", (186, 85, 211)),
  ("mediumpurple", (147, 112, 219)),
  ("mediumseagreen", (60, 179, 113)),
  ("mediumslateblue", (123, 104, 238)),
  ("mediumspringgreen", (0, 250, 154)),
  ("mediumturquoise", (72, 209, 204)),
  ("mediumvioletred", (199, 21, 133)),
  ("midnightblue", (25, 25, 112)),
  ("mintcream", (245, 255, 250)),
  ("mistyrose", (255, 228, 225)),
  ("moccasin", (255, 228, 181)),
  ("navajowhite", (255, 222, 173)),
  ("navy", (0, 0, 128)),
  ("oldlace", (253, 245, 230)),
  ("olive", (128, 128, 0)),
  ("olivedrab", (107, 142, 35)),
  ("orange", (255, 165, 0)),
  ("orangered", (255, 69, 0)),
  ("orchid", (218, 112, 214)),
  ("palegoldenrod", (238, 232, 170)),
  ("palegreen", (152, 251, 152)),
  ("paleturquoise", (175, 238, 238)),
  ("palevioletred", (219, 112, 147)),
  ("papayawhip", (255, 239, 213)),
  ("peachpuff", (255, 218, 185)),
  ("peru", (205, 133, 63)),
  ("pink", (255, 192, 203)),
  ("plum", (221, 160, 221)),
  ("powderblue", (176, 224, 230)),
  ("purple", (128, 0, 128)),
  ("rebeccapurple", (102, 51, 153)),
  ("red", (255, 0, 0)),
  ("rosybrown", (188, 143, 143)),
  ("royalblue", (65, 105, 225)),
  ("saddlebrown", (139, 69, 19)),
  ("salmon", (250, 128, 114)),
  ("sandybrown", (244, 164, 96)),
  ("seagreen", (46, 139, 87)),
  ("seashell", (255, 245, 238)),
  ("sienna", (160, 82, 45)),
  ("silver", (192, 192, 192)),
  ("skyblue", (135, 206, 235)),
  ("slateblue", (106, 90, 205)),
  ("slategray", (112, 128, 144)),
  ("slategrey", (112, 128, 144)),
  ("snow", (255, 250, 250)),
  ("springgreen", (0, 255, 127)),
  ("steelblue", (70, 130, 180)),
  ("tan", (210, 180, 140)),
  ("teal", (0, 128, 128)),
  ("thistle", (216, 191, 216)),
  ("tomato", (255, 99, 71)),
  ("turquoise", (64, 224, 208)),
  ("violet", (238, 130, 238)),
  ("wheat", (245, 222, 179)),
  ("white", (255, 255, 255)),
  ("whitesmoke", (245, 245, 245)),
  ("yellow", (255, 255, 0)),
  ("yellowgreen", (154, 205, 50))]

/-- `Color.from_name`'s normalization:
`name.lower().replace(" ", "").replace("-", "").replace("_", "")`. -/
def colorNameNormalize (s : String) : String :=
  String.mk (s.data.filterMap
    (fun c =>
      let l := c.toLower
      if l = ' ' ∨ l = '-' ∨ l = '_' then none else some l))

/-- `Color.from_name`: CSS-name lookup after normalization; unknown name
raises `ValueError`. -/
def Color.from_name (s : String) : Except String Color :=
  match CSS_COLORS.lookup (colorNameNormalize s) with
  | some rgb => .ok (mkColor rgb.1 rgb.2.1 rgb.2.2)
  | none => .error ("Unknown color name: " ++ s)

/-- The value of one hexadecimal digit as accepted by `int(_, 16)`. -/
def hexVal (c : Char) : Option ℕ :=
  if '0' ≤ c ∧ c ≤ '9' then some (c.toNat - '0'.toNat)
  else if 'a' ≤ c ∧ c ≤ 'f' then some (c.toNat - 'a'.toNat + 10)
  else if 'A' ≤ c ∧ c ≤ 'F' then some (c.toNat - 'A'.toNat + 10)
  else none

/-- `int(digits, 16)` on a nonempty digit string; `none` models the
`ValueError` raised on a non-hex character (or an empty slice). -/
def hexNat (cs : List Char) : Option ℕ :=
  if cs = [] then none
  else
    cs.foldl
      (fun acc c =>
        match acc, hexVal c with
        | some a, some d => some (16 * a + d)
        | _, _ => none)
      (some 0)

/-- `Color.from_hex`: strip leading `#`, then parse `#rgb`, `#rgba`,
`#rrggbb` or `#rrggbbaa` (single digits doubled, `int(h[i]*2, 16)`);
anything else raises `ValueError`. -/
def Color.from_hex (s : String) : Except String Color :=
  let h := s.data.dropWhile (fun c => c = '#')
  match h with
  | [r, g, b] =>
    match hexNat [r, r], hexNat [g, g], hexNat [b, b] with
    | some vr, some vg, some vb => .ok (mkColor (vr : ℤ) (vg : ℤ) (vb : ℤ))
    | _, _, _ => .error ("invalid literal for int() with base 16 in: " ++ s)
  | [r, g, b, a] =>
    match hexNat [r, r], hexNat [g, g], hexNat [b, b], hexNat [a, a] with
    | some vr, some vg, some vb, some va =>
      .ok (mkColor (vr : ℤ) (vg : ℤ) (vb : ℤ) (va : ℤ))
    | _, _, _, _ =>
      .error ("invalid literal for int() with base 16 in: " ++ s)
  | [r1, r2, g1, g2, b1, b2] =>
    match hexNat [r1, r2], hexNat [g1, g2], hexNat [b1, b2] with
    | some vr, some vg, some vb => .ok (mkColor (vr : ℤ) (vg : ℤ) (vb : ℤ))
    | _, _, _ => .error ("invalid literal for int() with base 16 in: " ++ s)
  | [r1, r2, g1, g2, b1, b2, a1, a2] =>
    match hexNat [r1, r2], hexNat [g1, g2], hexNat [b1, b2],
        hexNat [a1, a2] with
    | some vr, some vg, some vb, some va =>
      .ok (mkColor (vr : ℤ) (vg : ℤ) (vb : ℤ) (va : ℤ))
    | _, _, _, _ =>
      .error ("invalid literal for int() with base 16 in: " ++ s)
  | _ => .error ("Invalid hex color format: " ++ s)

/-- `Color.parse`: pass-through for a `Color`, hex (when the string starts
with `#`) or name for a string, clamped construction for a 3- or
4-tuple. -/
def Color.parse : ColorLike → Except String Color
  | .color c => .ok c
  | .str s =>
    if s.data.head? = some '#' then Color.from_hex s else Color.from_name s
  | .rgb r g b => .ok (mkColor r g b)
  | .rgba r g b a => .ok (mkColor r g b a)

/-- Errors an animation entrypoint can raise: a `ValueError` from color
parsing, or the unknown-easing error of `get_easing`. -/
inductive ArtError where
  | valueError (msg : String)
  | easing (e : EasingError)

/-- Result of a blocking animation entrypoint: `sync` — the destination was
written synchronously and the call returned with no task; `task` —
a generator was built (with the resolved easing function) and handed to
`_run_animation`. -/
inductive CallOutcome (γ δ : Type) where
  | sync (w : Win γ δ)
  | task (w : Win γ δ) (ease : ℝ → ℝ)

/-- `move(win, x, y, duration, ease)`: `duration <= 0` writes the
destination through the property setters and returns; otherwise the easing
is resolved and a move tween is run. -/
noncomputable def move (w : Win γ δ) (x y duration : ℚ) (ease : EasingArg) :
    Except EasingError (CallOutcome γ δ) :=
  if duration ≤ 0 then .ok (.sync ((w.setX x).setY y))
  else (get_easing ease).map (.task w)

/-- `resize(win, w, h, duration, ease)`. -/
noncomputable def resize (w : Win γ δ) (ww hh duration : ℚ) (ease : EasingArg) :
    Except EasingError (CallOutcome γ δ) :=
  if duration ≤ 0 then .ok (.sync ((w.setW ww).setH hh))
  else (get_easing ease).map (.task w)

/-- `fade(win, opacity, duration, ease)`; the synchronous write goes
through the clamping opacity setter. -/
noncomputable def fade (w : Win γ δ) (o duration : ℚ) (ease : EasingArg) :
    Except EasingError (CallOutcome γ δ) :=
  if duration ≤ 0 then .ok (.sync (w.setOpacity o))
  else (get_easing ease).map (.task w)

/-- `color_to(win, color, duration, ease)`: the destination is parsed
*before* the duration check (an unparseable color raises regardless of
duration); `duration <= 0` writes the parsed color synchronously. -/
noncomputable def color_to (w : Win γ δ) (color : ColorLike) (duration : ℚ)
    (ease : EasingArg) : Except ArtError (CallOutcome γ δ) :=
  match Color.parse color with
  | .error m => .error (.valueError m)
  | .ok target =>
    if duration ≤ 0 then .ok (.sync (w.setColorC target))
    else
      match get_easing ease with
      | .ok f => .ok (.task w f)
      | .error e => .error (.easing e)

/-- C5: every blocking entrypoint called with `duration <= 0` writes the
destination synchronously through the target's property setters, returns a
`sync` outcome — no task is created or run, and no error is raised (for
`color_to`, provided the color argument itself parses; parsing happens
before the duration check).  The written values: exact for `move` /
`resize` / `color_to`, and clamped into `[0, 1]` by the opacity property
setter for `fade` (exact for an in-range destination). -/
theorem sync_shortcut (w : Win γ δ) (duration : ℚ) (ease : EasingArg)
    (hd : duration ≤ 0) :
    (∀ x y, move w x y duration ease = .ok (.sync ((w.setX x).setY y)) ∧
      ((w.setX x).setY y).x = x ∧ ((w.setX x).setY y).y = y) ∧
    (∀ ww hh,
      resize w ww hh duration ease = .ok (.sync ((w.setW ww).setH hh)) ∧
      ((w.setW ww).setH hh).w = ww ∧ ((w.setW ww).setH hh).h = hh) ∧
    (∀ o, fade w o duration ease = .ok (.sync (w.setOpacity o)) ∧
      (w.setOpacity o).opacity = max 0 (min 1 o) ∧
      (0 ≤ o → o ≤ 1 → (w.setOpacity o).opacity = o)) ∧
    (∀ cl c, Color.parse cl = .ok c →
      color_to w cl duration ease = .ok (.sync (w.setColorC c)) ∧
      (w.setColorC c).color = c) := by
  refine ⟨?_, ?_, ?_, ?_⟩
  · intro x y
    exact ⟨by rw [move, if_pos hd], rfl, rfl⟩
  · intro ww hh
    exact ⟨by rw [resize, if_pos hd], rfl, rfl⟩
  · intro o
    refine ⟨by rw [fade, if_pos hd], rfl, ?_⟩
    intro h0 h1
    show max 0 (min 1 o) = o
    rw [min_eq_right h1, max_eq_right h0]
  · intro cl c hp
    refine ⟨?_, rfl⟩
    rw [color_to, hp]
    simp only
    rw [if_pos hd]

/-- Witness for C5 at a concrete call: `color_to` with the default color
string `"white"` and `duration = 0` returns synchronously with the parsed
color written. -/
theorem sync_shortcut_witness :
    color_to wOpen (.str "white") 0 (.name "linear") =
      .ok (.sync (wOpen.setColorC (mkColor 255 255 255))) :=
  ((sync_shortcut wOpen 0 (.name "linear") le_rfl).2.2.2 (.str "white")
    (mkColor 255 255 255) (by rfl)).1

end WindowArt
